import Mathlib

/-!
Kubegems plugin installer: the native applier and the plugin dispatcher.

A shallow embedding of `pkg/installer/controllers/native.go` and
`pkg/installer/controllers/plugin.go`.

Go strings are embedded as `String`, Go maps with string keys as association
lists (first binding wins, a `nil` map is `none`), Go `error` values as their
message. Every call that leaves the two files (source download, manifest
builders, JSON and YAML codecs, `reflect.DeepEqual`, the clock, the sync
engine) is a field of `Env` or of the applier record, so the theorems hold for
all behaviours of those collaborators. `Apply` and `Remove` take the status by
value and return it, together with the returned error and the list of calls
made, as an `Outcome`.
-/

namespace Kubegems

/-! ## Go runtime helpers -/

/-- A Go `error` value, identified by the text of `Error()`. -/
structure GoError where
  msg : String
  deriving DecidableEq, Repr

/-- What a Go function of result type `error` did: returned `nil`, returned a
non-nil error, or did not return because the runtime raised a fault. -/
inductive Return where
  | nil
  | error (err : GoError)
  | panicked
  deriving DecidableEq, Repr

/-- A Go `map[string]string` that is not `nil`. -/
abbrev StringMap := List (String × String)

/-- Go map read `m[key]`: the zero value `""` when the key is absent. -/
def mapIndex : StringMap → String → String
  | [], _ => ""
  | (k, v) :: rest, key => if k = key then v else mapIndex rest key

/-- Go two-result map read `v, ok := m[key]`. -/
def mapLookup : StringMap → String → Option String
  | [], _ => none
  | (k, v) :: rest, key => if k = key then some v else mapLookup rest key

/-- Go map write `m[key] = value`. -/
def mapAssign : StringMap → String → String → StringMap
  | [], key, value => [(key, value)]
  | (k, v) :: rest, key, value =>
    if k = key then (k, value) :: rest else (k, v) :: mapAssign rest key value

/-- Go slice read `xs[i]`: `none` is the index-out-of-range fault. -/
def sliceIndex (xs : List String) (i : Nat) : Option String :=
  xs.get? i

/-- Cut a character sequence at the first occurrence of `sep`. -/
def cutAt (sep : Char) : List Char → Option (List Char × List Char)
  | [] => none
  | c :: rest =>
    if c = sep then some ([], rest)
    else match cutAt sep rest with
      | none => none
      | some (before, after) => some (c :: before, after)

/-- Go `strings.SplitN` for a one-character separator and `n ≥ 0`, on character
sequences: at most `n` pieces, the last one holding the unsplit remainder. -/
def splitNChars (sep : Char) : Nat → List Char → List (List Char)
  | 0, _ => []
  | 1, s => [s]
  | n + 2, s =>
    match cutAt sep s with
    | none => [s]
    | some (before, after) => before :: splitNChars sep (n + 1) after

/-- Go `strings.SplitN(s, sep, n)` for a one-character separator. -/
def SplitN (s : String) (sep : Char) (n : Nat) : List String :=
  (splitNChars sep n s.data).map String.mk

/-! ## Manifests and the ownership annotation (native.go) -/

/-- Annotation key `ManagedPluginAnnotation`. -/
def ManagedPluginAnnotation : String := "kubegems.io/plugin-name"

/-- An `unstructured.Unstructured` object (also the `client.Object` seen by the
selector): its annotation map, `none` when `GetAnnotations()` is `nil`, and the
remainder of the object, which this package never inspects. -/
structure Unstructured where
  annotations : Option StringMap
  content : String
  deriving DecidableEq, Repr

/-- Accessor `GetAnnotations()`. -/
def Unstructured.GetAnnotations (u : Unstructured) : Option StringMap :=
  u.annotations

/-- Accessor `SetAnnotations(annotations)` with a non-nil map. -/
def Unstructured.SetAnnotations (u : Unstructured) (annotations : StringMap) : Unstructured :=
  { u with annotations := some annotations }

/-- The value written by `fmt.Sprintf("%s/%s", plugin.Namespace, plugin.Name)`. -/
def ownerValue (ns name : String) : String :=
  ns ++ "/" ++ name

/-- Body of the stamping loop of `NativePlugin.Apply` (native.go 80-85) for one
manifest. -/
def stampManifest (ns name : String) (m : Unstructured) : Unstructured :=
  let annotations :=
    match m.GetAnnotations with
    | none => []
    | some annotations => annotations
  let annotations := mapAssign annotations ManagedPluginAnnotation (ownerValue ns name)
  m.SetAnnotations annotations

/-- The constant `CountNameAndNamespace`. -/
def CountNameAndNamespace : Nat := 2

/-- The predicate installed by `WithManagedResourceSelectByPluginName(namespace,
name)` (native.go 180-189). `none` would be a runtime fault of the slice reads;
the conjunction is evaluated left to right and stops at the first false
operand, as Go does. -/
def WithManagedResourceSelectByPluginName (ns name : String) (obj : Unstructured) :
    Option Bool :=
  match obj.GetAnnotations with
  | some annotations =>
    let nm := mapIndex annotations ManagedPluginAnnotation
    let splits := SplitN nm '/' CountNameAndNamespace
    if 2 ≤ splits.length then
      (sliceIndex splits 0).bind fun s0 =>
        if s0 = ns then
          (sliceIndex splits 1).bind fun s1 =>
            if s1 = name then some true else some false
        else some false
    else some false
  | none => some false

/-! ## Formatting with no operands (Go package fmt) -/

/-- The flag characters skipped after a percent sign. -/
def isFlagChar (c : Char) : Bool :=
  c = '#' || c = '0' || c = '+' || c = '-' || c = ' '

/-- Skip the run of flag characters that follows a percent sign. -/
def skipFlags : List Char → List Char
  | [] => []
  | c :: rest => if isFlagChar c then skipFlags rest else c :: rest

/-- Go `parsenum`: read a decimal number; `none` is the overflow exit, which
also moves the read position to the end of the text. -/
def parsenum : List Char → Nat → Bool → Option (Nat × Bool × List Char)
  | [], num, isnum => some (num, isnum, [])
  | c :: rest, num, isnum =>
    if c.isDigit then
      if 1000000 < num then none
      else parsenum rest (num * 10 + (c.toNat - '0'.toNat)) true
    else some (num, isnum, c :: rest)

/-- Go `argNumber` when the call has no operands: the text after an optional
`[n]` index, whether a well-formed index was found, and whether the directive
is still free of index faults (with no operands every index is a fault). -/
def argNumberNoOperands (s : List Char) (good : Bool) : List Char × Bool × Bool :=
  match s with
  | '[' :: tail =>
    if s.length < 3 then (tail, false, false)
    else
      match cutAt ']' tail with
      | none => (tail, false, false)
      | some (inner, after) =>
        match parsenum inner 0 false with
        | some (_, true, []) => (after, true, false)
        | _ => (after, false, false)
  | _ => (s, false, good)

/-- The width of a directive when the call has no operands: what is written,
the text left, and the two index flags. A star finds no operand to read. -/
def widthNoOperands (s : List Char) (afterIndex good : Bool) :
    List Char × List Char × Bool × Bool :=
  match s with
  | '*' :: t => ("%!(BADWIDTH)".data, t, false, good)
  | _ =>
    match parsenum s 0 false with
    | none => ([], [], afterIndex, good)
    | some (_, widPresent, t) => ([], t, afterIndex, good && !(afterIndex && widPresent))

/-- The precision of a directive when the call has no operands; it is read only
when a character follows the dot. -/
def precisionNoOperands (s : List Char) (afterIndex good : Bool) :
    List Char × List Char × Bool × Bool :=
  match s with
  | '.' :: c :: t =>
    let r := argNumberNoOperands (c :: t) (good && !afterIndex)
    match r.1 with
    | '*' :: t => ("%!(BADPREC)".data, t, false, r.2.2)
    | s =>
      match parsenum s 0 false with
      | none => ([], [], r.2.1, r.2.2)
      | some (_, _, t) => ([], t, r.2.1, r.2.2)
  | _ => ([], s, afterIndex, good)

/-- The verb of a directive when the call has no operands: a percent sign is
written as itself, any other verb as a fault. -/
def verbCharNoOperands (s : List Char) (good : Bool) : List Char × List Char :=
  match s with
  | [] => ("%!(NOVERB)".data, [])
  | verb :: t =>
    if verb = '%' then (['%'], t)
    else if !good then ("%!".data ++ [verb] ++ "(BADINDEX)".data, t)
    else ("%!".data ++ [verb] ++ "(MISSING)".data, t)

/-- One directive of Go `doPrintf` when the call has no operands: the text
that follows a percent sign is consumed up to and including the verb (flags,
index, width, precision, index, verb); the result is what is written to the
output and the text left to process. -/
def verbNoOperands (s : List Char) : List Char × List Char :=
  let s := skipFlags s
  let i := argNumberNoOperands s true
  let w := widthNoOperands i.1 i.2.1 i.2.2
  let p := precisionNoOperands w.2.1 w.2.2.1 w.2.2.2
  let j := if p.2.2.1 then (p.2.1, p.2.2.1, p.2.2.2) else argNumberNoOperands p.2.1 p.2.2.2
  let v := verbCharNoOperands j.1 j.2.2
  (w.1 ++ p.1 ++ v.1, v.2)

/-- Go `doPrintf(format, nil)`: literal text is copied, every directive is
rendered by `verbNoOperands`. The first argument bounds the number of steps;
every step consumes at least one character. -/
def doPrintfNoOperands : Nat → List Char → List Char
  | 0, _ => []
  | _ + 1, [] => []
  | fuel + 1, c :: rest =>
    if c = '%' then
      (verbNoOperands rest).1 ++ doPrintfNoOperands fuel (verbNoOperands rest).2
    else c :: doPrintfNoOperands fuel rest

/-- Go `fmt.Errorf(format)` called with a format and no operands. -/
def ErrorfNoOperands (format : String) : GoError :=
  ⟨String.mk (doPrintfNoOperands (format.data.length + 1) format.data)⟩

/-- Go `strings.Join(elems, sep)`. -/
def Join : List String → String → String
  | [], _ => ""
  | [s], _ => s
  | s :: t :: rest, sep => s ++ sep ++ Join (t :: rest) sep

/-! ## Sync results (gitops-engine `sync/common`, `utils/kube`)

The declarations of the imported library that `native.go` reads: the phase and
result-code string types with their constants, and the resource key. -/

/-- Go `common.OperationPhase`, a string type. -/
abbrev OperationPhase := String

/-- Constant `common.OperationRunning`. -/
def OperationRunning : OperationPhase := "Running"
/-- Constant `common.OperationTerminating`. -/
def OperationTerminating : OperationPhase := "Terminating"
/-- Constant `common.OperationFailed`. -/
def OperationFailed : OperationPhase := "Failed"
/-- Constant `common.OperationError`. -/
def OperationError : OperationPhase := "Error"
/-- Constant `common.OperationSucceeded`. -/
def OperationSucceeded : OperationPhase := "Succeeded"

/-- Method `OperationPhase.Completed`, the test that ends the polling loop of
`NativeApply.Apply` (native.go 243). -/
def Completed (os : OperationPhase) : Bool :=
  os = OperationFailed || os = OperationError || os = OperationSucceeded

/-- Go `common.ResultCode`, a string type. -/
abbrev ResultCode := String

/-- Constant `common.ResultCodeSynced`. -/
def ResultCodeSynced : ResultCode := "Synced"
/-- Constant `common.ResultCodeSyncFailed`. -/
def ResultCodeSyncFailed : ResultCode := "SyncFailed"
/-- Constant `common.ResultCodePruned`. -/
def ResultCodePruned : ResultCode := "Pruned"

/-- Go `kube.ResourceKey`. -/
structure ResourceKey where
  Group : String
  Kind : String
  Namespace : String
  Name : String
  deriving DecidableEq, Repr

/-- Method `ResourceKey.String`: `fmt.Sprintf("%s/%s/%s/%s", ...)`. -/
def ResourceKey.String (k : ResourceKey) : String :=
  k.Group ++ "/" ++ k.Kind ++ "/" ++ k.Namespace ++ "/" ++ k.Name

/-- Go `common.ResourceSyncResult`, the fields read by `parseResult`. -/
structure ResourceSyncResult where
  ResourceKey : ResourceKey
  Status : ResultCode
  Message : String
  deriving DecidableEq, Repr

/-- Go `syncResult` (native.go 154-158). -/
structure SyncResult where
  phase : OperationPhase
  message : String
  results : List ResourceSyncResult
  deriving DecidableEq, Repr

/-- One element of `notes` in `parseResult`: the map with keys `resource` and
`status`. -/
structure Note where
  resource : String
  status : ResultCode
  deriving DecidableEq, Repr

/-! ## Plugins and their status (plugin.go) -/

/-- Go `pluginsv1beta1.PluginKind`, a string type. -/
abbrev PluginKind := String

/-- Modelled from the spec: the constants `PluginKindHelm`, `PluginKindKustomize`,
`PluginKindTemplate`, `PluginKindInline` of package `pluginsv1beta1`, which the
spec names helm, kustomize, template and inline. -/
def PluginKindHelm : PluginKind := "helm"
/-- Modelled from the spec: constant `PluginKindKustomize`. -/
def PluginKindKustomize : PluginKind := "kustomize"
/-- Modelled from the spec: constant `PluginKindTemplate`. -/
def PluginKindTemplate : PluginKind := "template"
/-- Modelled from the spec: constant `PluginKindInline`. -/
def PluginKindInline : PluginKind := "inline"

/-- Go `pluginsv1beta1.PluginPhase`, a string type (`Remove` has a case `""`). -/
abbrev PluginPhase := String

/-- Modelled from the spec: the constants `PluginPhaseNone`, `PluginPhaseInstalled`,
`PluginPhaseFailed`, `PluginPhaseRemoved` of package `pluginsv1beta1`, which the
spec names None, Installed, Failed and Removed. -/
def PluginPhaseNone : PluginPhase := "None"
/-- Modelled from the spec: constant `PluginPhaseInstalled`. -/
def PluginPhaseInstalled : PluginPhase := "Installed"
/-- Modelled from the spec: constant `PluginPhaseFailed`. -/
def PluginPhaseFailed : PluginPhase := "Failed"
/-- Modelled from the spec: constant `PluginPhaseRemoved`. -/
def PluginPhaseRemoved : PluginPhase := "Removed"

/-- Go `metav1.Time`, as the distance from the zero instant. -/
abbrev Time := Nat

/-- Method `Time.IsZero`. -/
def IsZero (t : Time) : Bool :=
  t = 0

/-- Go `runtime.RawExtension`: raw bytes and an optional decoded object. -/
structure RawExtension where
  Raw : String
  Object : Option Unstructured
  deriving DecidableEq, Repr

/-- Go `Plugin` (plugin.go 79-88); `V` is the type of `Values`. -/
structure Plugin (V : Type) where
  Kind : PluginKind
  Name : String
  Namespace : String
  Repo : String
  Version : String
  Path : String
  Resources : List RawExtension
  Values : V
  deriving DecidableEq, Repr

/-- Go `PluginStatus` (plugin.go 90-101). -/
structure PluginStatus (V : Type) where
  Name : String
  Namespace : String
  Phase : PluginPhase
  Values : V
  Version : String
  Message : String
  Notes : String
  CreationTimestamp : Time
  UpgradeTimestamp : Time
  DeletionTimestamp : Time
  deriving DecidableEq, Repr

/-- A call that left the package: a run of the sync engine with its target
namespace, desired resources and ownership predicate, or a call of a kind's
applier made by the dispatcher. -/
inductive Event where
  | sync (ns : String) (resources : List Unstructured) (selector : Unstructured → Option Bool)
  | dispatch (kind : PluginKind)

/-- The result of `Apply` or `Remove`: the returned error, the status as the
call left it, and the calls made, in order. -/
structure Outcome (V : Type) where
  ret : Return
  status : PluginStatus V
  trace : List Event

/-- The package-level collaborators of the appliers. -/
structure Env (V : Type) where
  /-- Function `Download(ctx, repo, version, path)`. -/
  Download : String → String → String → Except GoError String
  /-- Function `json.Unmarshal(raw, uns)`. -/
  Unmarshal : String → Except GoError Unstructured
  /-- Function `scheme.Scheme.Convert(obj, uns, nil)`, whose error is dropped. -/
  Convert : Unstructured → Unstructured
  /-- Function `reflect.DeepEqual`. -/
  DeepEqual : V → V → Bool
  /-- Function `yaml.Marshal(notes)`, whose error is dropped. -/
  Marshal : List Note → String
  /-- Function `metav1.Now()`. -/
  Now : Time
  /-- Function `filepath.Abs`, whose error is dropped. -/
  Abs : String → String

/-- Go `BuildFunc`. -/
abbrev BuildFunc (V : Type) := Plugin V → Except GoError (List Unstructured)

/-- The sync engine behind `NativePlugin.apply`: `NativeApply.Apply` returns
a pair `(*syncResult, error)`. -/
abbrev Applyer :=
  String → List Unstructured → (Unstructured → Option Bool) → Option SyncResult × Option GoError

/-- Go `NativePlugin` (native.go 31-37). -/
structure NativePlugin (V : Type) where
  DefaultRepo : String
  BuildFunc : BuildFunc V
  applyer : Applyer

/-- Go `NewNativePlugin` (native.go 41-46). -/
def NewNativePlugin {V : Type} (env : Env V) (applyer : Applyer) (defaultrepo : String)
    (buildfun : BuildFunc V) : NativePlugin V :=
  let abs := env.Abs defaultrepo
  let defaultrepo := if abs ≠ defaultrepo then abs else defaultrepo
  { DefaultRepo := defaultrepo, BuildFunc := buildfun, applyer := applyer }

/-- The loop of `InlineBuildPlugin` (plugin.go 44-55) from index `i` on. -/
def inlineBuildFrom {V : Type} (env : Env V) : Nat → List RawExtension →
    List Unstructured → Except GoError (List Unstructured)
  | _, [], rss => .ok rss
  | i, obj :: rest, rss =>
    match obj.Object with
    | some o => inlineBuildFrom env (i + 1) rest (rss ++ [env.Convert o])
    | none =>
      match env.Unmarshal obj.Raw with
      | .error err => .error ⟨"unmarshal resource[" ++ toString i ++ "]: " ++ err.msg⟩
      | .ok uns => inlineBuildFrom env (i + 1) rest (rss ++ [uns])

/-- Go `InlineBuildPlugin` (plugin.go 42-57). -/
def InlineBuildPlugin {V : Type} (env : Env V) (plugin : Plugin V) :
    Except GoError (List Unstructured) :=
  inlineBuildFrom env 0 plugin.Resources []

/-- The scan loop of `parseResult` (native.go 264-273) with its two
accumulators. -/
def scanResults : List ResourceSyncResult → List String → List Note → List String × List Note
  | [], errmsgs, notes => (errmsgs, notes)
  | result :: rest, errmsgs, notes =>
    let errmsgs :=
      if result.Status = ResultCodeSyncFailed then
        errmsgs ++ [result.ResourceKey.String ++ ": " ++ result.Message]
      else errmsgs
    scanResults rest errmsgs (notes ++ [⟨result.ResourceKey.String, result.Status⟩])

/-- Go `NativePlugin.parseResult` (native.go 254-281): the returned error and
the status as the call left it. -/
def parseResult {V : Type} (env : Env V) (result : SyncResult) (status : PluginStatus V) :
    Option GoError × PluginStatus V :=
  if result.phase = OperationRunning then
    (some ⟨"sync is still running: " ++ result.message⟩, status)
  else if result.phase = OperationFailed then
    (some ⟨"sync failed: " ++ result.message⟩, status)
  else
    let (errmsgs, notes) := scanResults result.results [] []
    let content := env.Marshal notes
    let status := { status with Notes := content }
    if 0 < errmsgs.length then
      (some (ErrorfNoOperands (Join errmsgs "\n")), status)
    else (none, status)

/-- The source defaults of `NativePlugin.Apply` (native.go 53-59): an unset
repo becomes the local default repo, an unset path the plugin name. -/
def sourceDefaults {V : Type} (n : NativePlugin V) (plugin : Plugin V) : Plugin V :=
  let plugin := if plugin.Repo = "" then { plugin with Repo := "file://" ++ n.DefaultRepo } else plugin
  let plugin := if plugin.Path = "" then { plugin with Path := plugin.Name } else plugin
  plugin

/-- Go `NativePlugin.Apply` (native.go 49-111). -/
def NativePlugin.Apply {V : Type} (env : Env V) (n : NativePlugin V) (plugin : Plugin V)
    (status : PluginStatus V) : Outcome V :=
  let ns := plugin.Namespace
  let name := plugin.Name
  let plugin := sourceDefaults n plugin
  match env.Download plugin.Repo plugin.Version plugin.Path with
  | .error err => ⟨.error err, status, []⟩
  | .ok p =>
    let plugin := { plugin with Path := p }
    match n.BuildFunc plugin with
    | .error err => ⟨.error ⟨"build manifests: " ++ err.msg⟩, status, []⟩
    | .ok manifests =>
      match InlineBuildPlugin env plugin with
      | .error err => ⟨.error err, status, []⟩
      | .ok inlineresources =>
        let manifests := manifests ++ inlineresources
        let manifests := manifests.map (stampManifest plugin.Namespace plugin.Name)
        if status.Phase = PluginPhaseInstalled ∧ env.DeepEqual status.Values plugin.Values = true then
          ⟨.nil, status, []⟩
        else
          let selector := WithManagedResourceSelectByPluginName ns name
          let call := Event.sync ns manifests selector
          match n.applyer ns manifests selector with
          | (_, some err) => ⟨.error err, status, [call]⟩
          | (none, none) => ⟨.panicked, status, [call]⟩
          | (some result, none) =>
            match parseResult env result status with
            | (some err, status) => ⟨.error err, status, [call]⟩
            | (none, status) =>
              let now := env.Now
              let status := { status with Phase := PluginPhaseInstalled }
              let status := { status with Values := plugin.Values }
              let status := { status with Message := result.message }
              let status := { status with Name := plugin.Name }
              let status := { status with Namespace := plugin.Namespace }
              let status :=
                if IsZero status.CreationTimestamp then { status with CreationTimestamp := now }
                else status
              let status := { status with UpgradeTimestamp := now }
              ⟨.nil, status, [call]⟩

/-- Go `NativePlugin.Remove` (native.go 113-145). -/
def NativePlugin.Remove {V : Type} (env : Env V) (n : NativePlugin V) (plugin : Plugin V)
    (status : PluginStatus V) : Outcome V :=
  let ns := plugin.Namespace
  let name := plugin.Name
  if status.Phase = PluginPhaseInstalled ∨ status.Phase = PluginPhaseFailed then
    let selector := WithManagedResourceSelectByPluginName ns name
    let call := Event.sync ns [] selector
    match n.applyer ns [] selector with
    | (_, some err) => ⟨.error err, status, [call]⟩
    | (none, none) => ⟨.panicked, status, [call]⟩
    | (some result, none) =>
      match parseResult env result status with
      | (some err, status) => ⟨.error err, status, [call]⟩
      | (none, status) =>
        let status := { status with Phase := PluginPhaseRemoved }
        let status := { status with Message := result.message }
        let status := { status with Name := plugin.Name }
        let status := { status with Namespace := plugin.Namespace }
        let status := { status with DeletionTimestamp := env.Now }
        ⟨.nil, status, [call]⟩
  else if status.Phase = PluginPhaseNone then
    ⟨.nil, status, []⟩
  else if status.Phase = "" then
    let status := { status with Phase := PluginPhaseNone }
    let status := { status with CreationTimestamp := env.Now }
    ⟨.nil, status, []⟩
  else
    ⟨.nil, status, []⟩

/-! ## The dispatcher (plugin.go) -/

/-- Go interface `PluginManager`. -/
structure PluginManager (V : Type) where
  Apply : Plugin V → PluginStatus V → Outcome V
  Remove : Plugin V → PluginStatus V → Outcome V

/-- A `NativePlugin` as a `PluginManager`. -/
def NativePlugin.toPluginManager {V : Type} (env : Env V) (n : NativePlugin V) :
    PluginManager V :=
  ⟨n.Apply env, n.Remove env⟩

/-- Variable `ErrUnknownPluginKind`. -/
def ErrUnknownPluginKind : GoError := ⟨"unknown plugin kind"⟩

/-- Go two-result map read `applier, ok := m.appliers[kind]`. -/
def lookupApplier {V : Type} : List (PluginKind × PluginManager V) → PluginKind →
    Option (PluginManager V)
  | [], _ => none
  | (k, applier) :: rest, kind => if k = kind then some applier else lookupApplier rest kind

/-- Go `DelegatePluginManager` (plugin.go 75-77). -/
structure DelegatePluginManager (V : Type) where
  appliers : List (PluginKind × PluginManager V)

/-- Go `PluginOptions` (plugin.go 25-29). -/
structure PluginOptions where
  ChartsDir : String
  PluginsDir : String
  KustomizeDir : String

/-- Go `NewDelegatePluginManager` (plugin.go 31-40). The Helm applier and the
kustomize and template builders live in other files of the package and are
arguments here. -/
def NewDelegatePluginManager {V : Type} (env : Env V) (applyer : Applyer)
    (NewHelmPlugin : String → PluginManager V)
    (KustomizeBuildPlugin TemplatesBuildPlugin : BuildFunc V)
    (options : PluginOptions) : DelegatePluginManager V :=
  { appliers := [
      (PluginKindHelm, NewHelmPlugin options.ChartsDir),
      (PluginKindKustomize,
        (NewNativePlugin env applyer options.KustomizeDir KustomizeBuildPlugin).toPluginManager env),
      (PluginKindTemplate,
        (NewNativePlugin env applyer options.PluginsDir TemplatesBuildPlugin).toPluginManager env),
      (PluginKindInline,
        (NewNativePlugin env applyer options.PluginsDir (InlineBuildPlugin env)).toPluginManager env)] }

/-- Go `DelegatePluginManager.Apply` (plugin.go 59-65). -/
def DelegatePluginManager.Apply {V : Type} (m : DelegatePluginManager V) (plugin : Plugin V)
    (status : PluginStatus V) : Outcome V :=
  match lookupApplier m.appliers plugin.Kind with
  | none => ⟨.error ErrUnknownPluginKind, status, []⟩
  | some applier =>
    let out := applier.Apply plugin status
    { out with trace := Event.dispatch plugin.Kind :: out.trace }

/-- Go `DelegatePluginManager.Remove` (plugin.go 67-73). -/
def DelegatePluginManager.Remove {V : Type} (m : DelegatePluginManager V) (plugin : Plugin V)
    (status : PluginStatus V) : Outcome V :=
  match lookupApplier m.appliers plugin.Kind with
  | none => ⟨.error ErrUnknownPluginKind, status, []⟩
  | some applier =>
    let out := applier.Remove plugin status
    { out with trace := Event.dispatch plugin.Kind :: out.trace }

/-! ## The sync engine call (native.go 166-252) -/

/-- Go `Options` (native.go 166-168); `none` is the nil predicate. -/
structure Options where
  ManagedResourceSelection : Option (Unstructured → Option Bool)

/-- Go type `Option` (native.go 170). -/
abbrev ApplyOption := Options → Options

/-- Go `WithManagedResourceSelection` (native.go 172-176). -/
def WithManagedResourceSelection (fn : Unstructured → Option Bool) : ApplyOption :=
  fun o => { o with ManagedResourceSelection := some fn }

/-- The predicate handed to `GetManagedLiveObjs` (native.go 215-220): nothing is
selected when no predicate was configured. -/
def isManaged (opts : Options) (r : Unstructured) : Option Bool :=
  match opts.ManagedResourceSelection with
  | none => some false
  | some fn => fn r

/-- A `cache.ClusterCache` as this file uses it: the lookup of the live objects
that are managed, which can fail. -/
structure ClusterCache where
  GetManagedLiveObjs :
    List Unstructured → (Unstructured → Option Bool) → Except GoError (List Unstructured)

/-- A sync context as this file uses it: `observe k` is what `GetState()` reads
right after the call of `Sync()` in round `k` of the polling loop, rounds
counted from 0. -/
structure SyncContext where
  observe : Nat → SyncResult

/-- The cluster side of one call of `NativeApply.Apply`. -/
structure Cluster where
  /-- The cache built by `cache.NewClusterCache`. -/
  NewClusterCache : ClusterCache
  /-- The result of `newcache.EnsureSynced()`. -/
  EnsureSynced : Option GoError
  /-- The steps `sync.Reconcile` and `sync.NewSyncContext` on the desired
  resources, the managed live objects and the namespace. -/
  NewSyncContext : List Unstructured → List Unstructured → String → Except GoError SyncContext
  /-- The number of times the `select` of the polling loop receives a tick
  before it receives the cancellation signal `ctx.Done()`. -/
  ticks : Nat

/-- Go `NativeApply` (native.go 192-195): the cache, `none` until the first
call has built and synced one. -/
structure NativeApply where
  cache : Option ClusterCache

/-- Variable `wait.ErrWaitTimeout`, the error of a poll that was stopped. -/
def ErrWaitTimeout : GoError := ⟨"timed out waiting for the condition"⟩

/-- Go `wait.PollUntil(period, condition, ctx.Done())` with the condition of
native.go 239-247, from round `k` on with `result` the value of the variable
`result` so far. Each tick runs the condition: one `Sync()`, one `GetState()`
stored in `result`, and the loop returns nil when the phase read is completed.
When the cancellation signal is received instead, the loop returns
`ErrWaitTimeout` and `result` stays as the last round left it. A run that
never completes and is never cancelled does not return; every run that
returns is the run of some number of ticks. -/
def PollUntil (syncCtx : SyncContext) : Nat → Nat → Option SyncResult →
    Option SyncResult × Option GoError
  | 0, _, result => (result, some ErrWaitTimeout)
  | ticks + 1, k, _ =>
    let result := syncCtx.observe k
    if Completed result.phase = true then (some result, none)
    else PollUntil syncCtx ticks (k + 1) (some result)

/-- Go `NativeApply.Apply` from the line `clusterCache, config := n.cache,
n.Config` on (native.go 214-251). -/
def applyWithCache (c : Cluster) (clusterCache : ClusterCache) (ns : String)
    (resources : List Unstructured) (opts : Options) : Option SyncResult × Option GoError :=
  match clusterCache.GetManagedLiveObjs resources (isManaged opts) with
  | .error err => (none, some err)
  | .ok managedResources =>
    match c.NewSyncContext resources managedResources ns with
    | .error err => (none, some err)
    | .ok syncCtx => PollUntil syncCtx c.ticks 0 none

/-- Go `NativeApply.Apply` (native.go 197-252): the receiver as the call left
it, and the returned pair. -/
def NativeApply.Apply (c : Cluster) (n : NativeApply) (ns : String)
    (resources : List Unstructured) (options : List ApplyOption) :
    NativeApply × (Option SyncResult × Option GoError) :=
  let opts := options.foldl (fun o opt => opt o) ⟨none⟩
  match n.cache with
  | none =>
    match c.EnsureSynced with
    | some err => (n, (none, some err))
    | none =>
      ({ n with cache := some c.NewClusterCache },
        applyWithCache c c.NewClusterCache ns resources opts)
  | some clusterCache => (n, applyWithCache c clusterCache ns resources opts)

/-- Go `NativePlugin.apply` (native.go 147-152) over a cluster: the call of
`n.applyer.Apply` with the one option the native applier passes. -/
def engineOn (c : Cluster) (applyer : NativeApply) : Applyer :=
  fun ns resources selector =>
    (applyer.Apply c ns resources [WithManagedResourceSelection selector]).2

/-- The value of the variable `result` after `rounds` rounds of the polling
loop: nil before the first round, afterwards what the last round read. -/
def lastObserved (syncCtx : SyncContext) : Nat → Option SyncResult
  | 0 => none
  | rounds + 1 => some (syncCtx.observe rounds)

/-- Modelled from the spec: the aggregate phases a sync result carries. The
data model of the spec gives `SyncResult.phase` the values Running, Succeeded
and Failed, and its sync engine reports completion as Succeeded or Failed. -/
def isSpecPhase (phase : OperationPhase) : Bool :=
  phase = OperationRunning || phase = OperationSucceeded || phase = OperationFailed

/-! ## Reading a sync result entry by entry -/

/-- The note `parseResult` appends for one per-resource result. -/
def noteOf (result : ResourceSyncResult) : Note :=
  ⟨result.ResourceKey.String, result.Status⟩

/-- The line `parseResult` appends to `errmsgs` for one failed result:
`fmt.Sprintf("%s: %s", result.ResourceKey.String(), result.Message)`. -/
def errmsgOf (result : ResourceSyncResult) : String :=
  result.ResourceKey.String ++ ": " ++ result.Message

/-- The per-resource results with status `SyncFailed`, in order. -/
def syncFailed (results : List ResourceSyncResult) : List ResourceSyncResult :=
  results.filter fun result => decide (result.Status = ResultCodeSyncFailed)

/-! ## Concrete inputs -/

/-- Values of the concrete plugins: a flat string map. -/
abbrev DemoValues := List (String × String)

/-- A serialiser for the concrete environment: one YAML list item per note. -/
def demoMarshal (notes : List Note) : String :=
  String.join (notes.map fun note =>
    "- resource: " ++ note.resource ++ "\n  status: " ++ note.status ++ "\n")

/-- A concrete environment: every source resolves, every raw resource decodes,
the clock reads 42. -/
def demoEnv : Env DemoValues where
  Download := fun repo _ path => .ok (repo ++ "/" ++ path)
  Unmarshal := fun raw => .ok ⟨none, raw⟩
  Convert := fun obj => obj
  DeepEqual := fun a b => decide (a = b)
  Marshal := demoMarshal
  Now := 42
  Abs := fun path => path

/-- A sync engine that reports `result` with a nil error. -/
def demoEngine (result : SyncResult) : Applyer :=
  fun _ _ _ => (some result, none)

/-- A sync engine whose polling loop was cancelled: last result and an error. -/
def cancelledEngine : Applyer :=
  fun _ _ _ => (some ⟨OperationRunning, "", []⟩, some ⟨"timed out waiting for the condition"⟩)

/-- The inline applier over `demoEnv` and the given engine. -/
def demoNative (applyer : Applyer) : NativePlugin DemoValues :=
  NewNativePlugin demoEnv applyer "plugins" (InlineBuildPlugin demoEnv)

/-- Plugin `ns1/demo` of kind inline with one resource. -/
def demoPlugin : Plugin DemoValues where
  Kind := PluginKindInline
  Name := "demo"
  Namespace := "ns1"
  Repo := ""
  Version := "0.0.0"
  Path := ""
  Resources := [⟨"cm-a", none⟩]
  Values := [("replicas", "1")]

/-- A status of `ns1/demo` in the given phase, created at instant 5. -/
def demoStatus (phase : PluginPhase) : PluginStatus DemoValues where
  Name := "demo"
  Namespace := "ns1"
  Phase := phase
  Values := [("replicas", "1")]
  Version := "0.0.0"
  Message := ""
  Notes := "old notes"
  CreationTimestamp := 5
  UpgradeTimestamp := 5
  DeletionTimestamp := 0

/-- The resource key of ConfigMap `ns1/cm-a`. -/
def cmA : ResourceKey := ⟨"", "ConfigMap", "ns1", "cm-a"⟩

/-- The resource key of ConfigMap `ns1/cm-b`. -/
def cmB : ResourceKey := ⟨"", "ConfigMap", "ns1", "cm-b"⟩

/-- A stand-in for the Helm applier, which lives in another file of the
package: it touches nothing and returns nil. -/
def demoHelm (_chartsDir : String) : PluginManager DemoValues :=
  ⟨fun _ status => ⟨.nil, status, []⟩, fun _ status => ⟨.nil, status, []⟩⟩

/-- The dispatcher built by `NewDelegatePluginManager` over `demoEnv` and an
engine that reports success. -/
def demoManager : DelegatePluginManager DemoValues :=
  NewDelegatePluginManager demoEnv (demoEngine ⟨OperationSucceeded, "successfully synced", []⟩)
    demoHelm (fun _ => .ok []) (fun _ => .ok []) ⟨"charts", "plugins", "kustomize"⟩

/-- A sync context that stays in phase `Running`, with resource `cm-a` not
yet synced, in every round. -/
def stuckContext : SyncContext :=
  ⟨fun k => ⟨OperationRunning, "waiting for round " ++ toString k, [⟨cmA, "", ""⟩]⟩⟩

/-- A sync context that reads `Running` in round 0 and `Succeeded` from round 1
on. -/
def convergingContext : SyncContext :=
  ⟨fun k =>
    if k = 0 then ⟨OperationRunning, "one or more tasks are running", []⟩
    else ⟨OperationSucceeded, "successfully synced", [⟨cmA, ResultCodeSynced, "configmap/cm-a created"⟩]⟩⟩

/-- A cluster whose cache syncs, whose lookups succeed, which hands out the
given sync context and whose caller cancels after the given number of ticks. -/
def demoCluster (syncCtx : SyncContext) (ticks : Nat) : Cluster where
  NewClusterCache := ⟨fun _ _ => .ok []⟩
  EnsureSynced := none
  NewSyncContext := fun _ _ _ => .ok syncCtx
  ticks := ticks

/-! ## Basic facts about the helpers -/

theorem cutAt_append (sep : Char) (a b : List Char) (h : sep ∉ a) :
    cutAt sep (a ++ sep :: b) = some (a, b) := by
  induction a with
  | nil => simp [cutAt]
  | cons c rest ih =>
    have hc : c ≠ sep := fun e => h (by simp [e])
    have hrest : sep ∉ rest := fun e => h (by simp [e])
    simp [cutAt, hc, ih hrest]

theorem cutAt_some (sep : Char) (l a b : List Char) (h : cutAt sep l = some (a, b)) :
    l = a ++ sep :: b := by
  induction l generalizing a with
  | nil => simp [cutAt] at h
  | cons c rest ih =>
    unfold cutAt at h
    split at h
    · next hc =>
      simp only [Option.some.injEq, Prod.mk.injEq] at h
      obtain ⟨rfl, rfl⟩ := h
      simp [hc]
    · split at h
      · simp at h
      · next before after heq =>
        simp only [Option.some.injEq, Prod.mk.injEq] at h
        obtain ⟨rfl, rfl⟩ := h
        simp [ih before heq]

theorem cutAt_none (sep : Char) (l : List Char) (h : sep ∉ l) : cutAt sep l = none := by
  induction l with
  | nil => simp [cutAt]
  | cons c rest ih =>
    have hc : c ≠ sep := fun e => h (by simp [e])
    have hrest : sep ∉ rest := fun e => h (by simp [e])
    simp [cutAt, hc, ih hrest]

theorem ownerValue_data (ns name : String) :
    (ownerValue ns name).data = ns.data ++ '/' :: name.data := by
  simp [ownerValue, String.data_append]

theorem SplitN_ownerValue (ns name : String) (h : '/' ∉ ns.data) :
    SplitN (ownerValue ns name) '/' 2 = [ns, name] := by
  simp [SplitN, ownerValue_data, splitNChars, cutAt_append _ _ _ h]

theorem SplitN_two_of_cut (s : String) (a b : List Char) (h : cutAt '/' s.data = some (a, b)) :
    SplitN s '/' 2 = [String.mk a, String.mk b] ∧ s = ownerValue (String.mk a) (String.mk b) := by
  refine ⟨by simp [SplitN, splitNChars, h], ?_⟩
  have hd := cutAt_some _ _ _ _ h
  apply String.ext
  rw [ownerValue_data, hd]

theorem SplitN_two_of_no_cut (s : String) (h : cutAt '/' s.data = none) :
    SplitN s '/' 2 = [s] := by
  simp [SplitN, splitNChars, h]

theorem mapIndex_mapAssign (a : StringMap) (key value : String) :
    mapIndex (mapAssign a key value) key = value := by
  induction a with
  | nil => simp [mapAssign, mapIndex]
  | cons kv rest ih =>
    obtain ⟨k, v⟩ := kv
    by_cases hk : k = key
    · simp [mapAssign, mapIndex, hk]
    · simp [mapAssign, mapIndex, hk, ih]

theorem mapIndex_of_lookup_none (a : StringMap) (key : String) (h : mapLookup a key = none) :
    mapIndex a key = "" := by
  induction a with
  | nil => simp [mapIndex]
  | cons kv rest ih =>
    obtain ⟨k, v⟩ := kv
    by_cases hk : k = key
    · simp [mapLookup, hk] at h
    · simp [mapLookup, hk] at h
      simp [mapIndex, hk, ih h]

theorem mapIndex_of_lookup_some (a : StringMap) (key v : String) (h : mapLookup a key = some v) :
    mapIndex a key = v := by
  induction a with
  | nil => simp [mapLookup] at h
  | cons kv rest ih =>
    obtain ⟨k, w⟩ := kv
    by_cases hk : k = key
    · simp [mapLookup, hk] at h
      simp [mapIndex, hk, h]
    · simp [mapLookup, hk] at h
      simp [mapIndex, hk, ih h]

theorem mapLookup_cases (a : StringMap) (key : String) :
    mapLookup a key = none ∨ mapLookup a key = some (mapIndex a key) := by
  cases h : mapLookup a key with
  | none => exact Or.inl rfl
  | some v => exact Or.inr (by rw [mapIndex_of_lookup_some a key v h])

/-- The selector on an object with a non-nil annotation map, in terms of the
cut of the annotation value at its first slash. -/
theorem select_of_annotations (ns name : String) (obj : Unstructured) (a : StringMap)
    (ha : obj.GetAnnotations = some a) :
    WithManagedResourceSelectByPluginName ns name obj =
      match cutAt '/' (mapIndex a ManagedPluginAnnotation).data with
      | none => some false
      | some (before, after) =>
        some (decide (String.mk before = ns) && decide (String.mk after = name)) := by
  unfold WithManagedResourceSelectByPluginName
  rw [ha]
  simp only [CountNameAndNamespace]
  cases hcut : cutAt '/' (mapIndex a ManagedPluginAnnotation).data with
  | none => simp [SplitN_two_of_no_cut _ hcut]
  | some p =>
    obtain ⟨before, after⟩ := p
    rw [(SplitN_two_of_cut _ _ _ hcut).1]
    by_cases h0 : String.mk before = ns <;> by_cases h1 : String.mk after = name <;>
      simp [sliceIndex, h0, h1]

/-! ## Formatting with no operands: the step bound is never reached -/

theorem skipFlags_length (s : List Char) : (skipFlags s).length ≤ s.length := by
  induction s with
  | nil => simp [skipFlags]
  | cons c rest ih =>
    unfold skipFlags
    split
    · simp only [List.length_cons]; omega
    · exact Nat.le_refl _

theorem cutAt_length (sep : Char) (l a b : List Char) (h : cutAt sep l = some (a, b)) :
    b.length < l.length := by
  rw [cutAt_some sep l a b h]
  simp only [List.length_append, List.length_cons]
  omega

theorem parsenum_length (s : List Char) (num : Nat) (isnum : Bool) (n : Nat) (b : Bool)
    (t : List Char) (h : parsenum s num isnum = some (n, b, t)) : t.length ≤ s.length := by
  induction s generalizing num isnum with
  | nil =>
    simp only [parsenum, Option.some.injEq, Prod.mk.injEq] at h
    rw [← h.2.2]
  | cons c rest ih =>
    unfold parsenum at h
    split at h
    · split at h
      · cases h
      · have := ih _ _ h
        simp only [List.length_cons]
        omega
    · simp only [Option.some.injEq, Prod.mk.injEq] at h
      rw [← h.2.2]

theorem argNumberNoOperands_length (s : List Char) (good : Bool) :
    (argNumberNoOperands s good).1.length ≤ s.length := by
  unfold argNumberNoOperands
  split
  · next tail =>
    split
    · simp only [List.length_cons]; omega
    · split
      · simp only [List.length_cons]; omega
      · next inner after hcut =>
        have := cutAt_length _ _ _ _ hcut
        split <;> simp only [List.length_cons] <;> omega
  · exact Nat.le_refl _

theorem widthNoOperands_length (s : List Char) (afterIndex good : Bool) :
    (widthNoOperands s afterIndex good).2.1.length ≤ s.length := by
  unfold widthNoOperands
  split
  · simp only [List.length_cons]; omega
  · split
    · simp
    · next hp => exact parsenum_length _ _ _ _ _ _ hp

theorem precisionNoOperands_length (s : List Char) (afterIndex good : Bool) :
    (precisionNoOperands s afterIndex good).2.1.length ≤ s.length := by
  unfold precisionNoOperands
  split
  · next c t =>
    have ha := argNumberNoOperands_length (c :: t) (good && !afterIndex)
    simp only [List.length_cons] at ha ⊢
    split
    · next t2 heq =>
      rw [heq] at ha
      simp only [List.length_cons] at ha
      dsimp only
      omega
    · split
      · simp
      · next hp =>
        have := parsenum_length _ _ _ _ _ _ hp
        dsimp only
        omega
  · exact Nat.le_refl _

theorem verbCharNoOperands_length (s : List Char) (good : Bool) :
    (verbCharNoOperands s good).2.length ≤ s.length := by
  unfold verbCharNoOperands
  split
  · simp
  · split
    · simp
    · split <;> simp

theorem verbNoOperands_length (s : List Char) : (verbNoOperands s).2.length ≤ s.length := by
  unfold verbNoOperands
  simp only []
  have h1 := skipFlags_length s
  have h2 := argNumberNoOperands_length (skipFlags s) true
  have h3 := widthNoOperands_length (argNumberNoOperands (skipFlags s) true).1
    (argNumberNoOperands (skipFlags s) true).2.1 (argNumberNoOperands (skipFlags s) true).2.2
  generalize widthNoOperands _ _ _ = w at h3 ⊢
  have h4 := precisionNoOperands_length w.2.1 w.2.2.1 w.2.2.2
  generalize precisionNoOperands _ _ _ = p at h4 ⊢
  have h5 := argNumberNoOperands_length p.2.1 p.2.2.2
  refine Nat.le_trans (verbCharNoOperands_length _ _) ?_
  split
  · dsimp only
    omega
  · omega

/-- The step bound of `doPrintfNoOperands` is never the reason it stops: any
bound above the length of the format gives the same text. -/
theorem doPrintfNoOperands_fuel (fuel : Nat) (s : List Char) (h : s.length < fuel) :
    doPrintfNoOperands fuel s = doPrintfNoOperands (s.length + 1) s := by
  induction fuel using Nat.strong_induction_on generalizing s with
  | _ fuel ih =>
    cases fuel with
    | zero => omega
    | succ fuel =>
      cases s with
      | nil => simp [doPrintfNoOperands]
      | cons c rest =>
        simp only [doPrintfNoOperands, List.length_cons]
        have hv := verbNoOperands_length rest
        simp only [List.length_cons] at h
        split
        · rw [ih fuel (by omega) _ (by omega), ih (rest.length + 1) (by omega) _ (by omega)]
        · rw [ih fuel (by omega) _ (by omega)]

/-- A format without a percent sign is rendered as itself. -/
theorem ErrorfNoOperands_of_no_percent (format : String) (h : '%' ∉ format.data) :
    ErrorfNoOperands format = ⟨format⟩ := by
  have key : ∀ (s : List Char) (fuel : Nat), '%' ∉ s → s.length < fuel →
      doPrintfNoOperands fuel s = s := by
    intro s
    induction s with
    | nil => intro fuel _ hf; cases fuel <;> simp [doPrintfNoOperands] at hf ⊢
    | cons c rest ih =>
      intro fuel hs hf
      cases fuel with
      | zero => omega
      | succ fuel =>
        have hc : c ≠ '%' := fun e => hs (by simp [e])
        have hrest : '%' ∉ rest := fun e => hs (by simp [e])
        simp only [List.length_cons] at hf
        simp [doPrintfNoOperands, hc, ih fuel hrest (by omega)]
  unfold ErrorfNoOperands
  rw [key format.data _ h (by omega)]

/-! ## Ownership selector -/

/-- C1 (as stated, refuted): with namespace `a/b` and name `c` the stamping loop
writes `a/b/c`, which the selector cuts into `a` and `b/c`, so the stamped
manifest is not classified as managed by the plugin that stamped it. -/
theorem stamped_not_selected_when_namespace_has_slash :
    WithManagedResourceSelectByPluginName "a/b" "c"
      (stampManifest "a/b" "c" ⟨none, "cm-a"⟩) ≠ some true := by
  decide

/-- C1 (amended): for every plugin identity whose namespace contains no slash
and every list of manifests, each manifest that leaves the stamping loop of
`NativePlugin.Apply` is classified as managed by the predicate built by
`WithManagedResourceSelectByPluginName` for the same namespace and name. -/
theorem stamped_manifests_selected (ns name : String) (manifests : List Unstructured)
    (hns : '/' ∉ ns.data) :
    ∀ m ∈ manifests.map (stampManifest ns name),
      WithManagedResourceSelectByPluginName ns name m = some true := by
  intro m hm
  obtain ⟨m0, _, rfl⟩ := List.mem_map.mp hm
  have ha : (stampManifest ns name m0).GetAnnotations =
      some (mapAssign (match m0.GetAnnotations with | none => [] | some a => a)
        ManagedPluginAnnotation (ownerValue ns name)) := rfl
  rw [select_of_annotations ns name _ _ ha, mapIndex_mapAssign, ownerValue_data,
    cutAt_append _ _ _ hns]
  simp

/-- Witness for C1 (amended): plugin `ns1/demo` stamping one manifest without
annotations and one that already carries another owner. -/
theorem stamped_manifests_selected_witness :
    '/' ∉ ("ns1" : String).data ∧
    ∀ m ∈ [(⟨none, "cm-a"⟩ : Unstructured),
        ⟨some [( ManagedPluginAnnotation, "other/plugin")], "cm-b"⟩].map (stampManifest "ns1" "demo"),
      WithManagedResourceSelectByPluginName "ns1" "demo" m = some true :=
  ⟨by decide, stamped_manifests_selected "ns1" "demo" _ (by decide)⟩

/-- C2: if the selector for `(ns, name)` returns true on an object then the
object has a non-nil annotation map whose ownership key is bound to exactly
`ns ++ "/" ++ name`; and on an object whose annotation map is nil, or lacks the
ownership key, or binds it to a value without a slash, the selector returns
false and raises no fault. -/
theorem select_correct (ns name : String) (obj : Unstructured) :
    (WithManagedResourceSelectByPluginName ns name obj = some true →
      ∃ a, obj.GetAnnotations = some a ∧
        mapLookup a ManagedPluginAnnotation = some (ns ++ "/" ++ name)) ∧
    (obj.GetAnnotations = none →
      WithManagedResourceSelectByPluginName ns name obj = some false) ∧
    (∀ a, obj.GetAnnotations = some a → mapLookup a ManagedPluginAnnotation = none →
      WithManagedResourceSelectByPluginName ns name obj = some false) ∧
    (∀ a v, obj.GetAnnotations = some a → mapLookup a ManagedPluginAnnotation = some v →
      '/' ∉ v.data → WithManagedResourceSelectByPluginName ns name obj = some false) := by
  refine ⟨?_, ?_, ?_, ?_⟩
  · intro h
    cases ha : obj.GetAnnotations with
    | none => simp [WithManagedResourceSelectByPluginName, ha] at h
    | some a =>
      refine ⟨a, rfl, ?_⟩
      rw [select_of_annotations ns name obj a ha] at h
      cases hcut : cutAt '/' (mapIndex a ManagedPluginAnnotation).data with
      | none => simp [hcut] at h
      | some p =>
        obtain ⟨before, after⟩ := p
        simp only [hcut, Option.some.injEq, Bool.and_eq_true, decide_eq_true_eq] at h
        have hv := (SplitN_two_of_cut _ _ _ hcut).2
        rw [h.1, h.2] at hv
        rcases mapLookup_cases a ManagedPluginAnnotation with hl | hl
        · rw [mapIndex_of_lookup_none a _ hl] at hcut
          simp [cutAt] at hcut
        · rw [hl, hv]
          rfl
  · intro ha
    simp [WithManagedResourceSelectByPluginName, ha]
  · intro a ha hl
    rw [select_of_annotations ns name obj a ha, mapIndex_of_lookup_none a _ hl]
    rfl
  · intro a v ha hl hv
    rw [select_of_annotations ns name obj a ha, mapIndex_of_lookup_some a _ v hl,
      cutAt_none _ _ hv]

/-- Witness for C2: the four parts at concrete objects. -/
theorem select_correct_witness :
    (∃ a, (⟨some [( ManagedPluginAnnotation, "ns1/demo")], "cm-a"⟩ : Unstructured).GetAnnotations =
        some a ∧ mapLookup a ManagedPluginAnnotation = some ("ns1" ++ "/" ++ "demo")) ∧
    WithManagedResourceSelectByPluginName "ns1" "demo" ⟨none, "cm-a"⟩ = some false ∧
    WithManagedResourceSelectByPluginName "ns1" "demo" ⟨some [("app", "x")], "cm-a"⟩ = some false ∧
    WithManagedResourceSelectByPluginName "ns1" "demo"
      ⟨some [( ManagedPluginAnnotation, "ns1demo")], "cm-a"⟩ = some false :=
  ⟨(select_correct "ns1" "demo" ⟨some [( ManagedPluginAnnotation, "ns1/demo")], "cm-a"⟩).1
      (by decide),
    (select_correct "ns1" "demo" ⟨none, "cm-a"⟩).2.1 rfl,
    (select_correct "ns1" "demo" ⟨some [("app", "x")], "cm-a"⟩).2.2.1 _ rfl (by decide),
    (select_correct "ns1" "demo" ⟨some [( ManagedPluginAnnotation, "ns1demo")], "cm-a"⟩).2.2.2
      _ "ns1demo" rfl (by decide) (by decide)⟩

/-! ## Result classification -/

theorem scanResults_eq (results : List ResourceSyncResult) (errmsgs : List String)
    (notes : List Note) :
    scanResults results errmsgs notes =
      (errmsgs ++ (syncFailed results).map errmsgOf, notes ++ results.map noteOf) := by
  induction results generalizing errmsgs notes with
  | nil => simp [scanResults, syncFailed]
  | cons r rest ih =>
    by_cases hr : r.Status = ResultCodeSyncFailed
    · simp [scanResults, ih, syncFailed, hr, errmsgOf, noteOf, List.filter_cons]
    · simp [scanResults, ih, syncFailed, hr, errmsgOf, noteOf, List.filter_cons]

/-- What `parseResult` does when the aggregate phase is neither `Running` nor
`Failed`: the notes are replaced by the serialisation of one note per result,
and an error is returned exactly when some result has status `SyncFailed`. -/
theorem parseResult_scanned {V : Type} (env : Env V) (result : SyncResult)
    (status : PluginStatus V) (hr : result.phase ≠ OperationRunning)
    (hf : result.phase ≠ OperationFailed) :
    parseResult env result status =
      (if syncFailed result.results = [] then none
        else some (ErrorfNoOperands (Join ((syncFailed result.results).map errmsgOf) "\n")),
       { status with Notes := env.Marshal (result.results.map noteOf) }) := by
  unfold parseResult
  rw [if_neg hr, if_neg hf, scanResults_eq]
  by_cases h : syncFailed result.results = []
  · simp [h]
  · have : 0 < (syncFailed result.results).length := List.length_pos.mpr h
    simp [h, this]

/-- `parseResult` never changes a field of the status other than `Notes`. -/
theorem parseResult_frame {V : Type} (env : Env V) (result : SyncResult)
    (status : PluginStatus V) :
    ∃ notes, (parseResult env result status).2 = { status with Notes := notes } := by
  by_cases hr : result.phase = OperationRunning
  · exact ⟨status.Notes, by simp [parseResult, hr]⟩
  · by_cases hf : result.phase = OperationFailed
    · exact ⟨status.Notes, by unfold parseResult; rw [if_neg hr, if_pos hf]⟩
    · exact ⟨_, by rw [parseResult_scanned env result status hr hf]⟩

theorem parseResult_phase {V : Type} (env : Env V) (result : SyncResult)
    (status : PluginStatus V) :
    (parseResult env result status).2.Phase = status.Phase ∧
    (parseResult env result status).2.CreationTimestamp = status.CreationTimestamp := by
  obtain ⟨notes, h⟩ := parseResult_frame env result status
  rw [h]
  exact ⟨rfl, rfl⟩

theorem sourceDefaults_values {V : Type} (n : NativePlugin V) (plugin : Plugin V) :
    (sourceDefaults n plugin).Values = plugin.Values := by
  unfold sourceDefaults
  by_cases h1 : plugin.Repo = "" <;> by_cases h2 : plugin.Path = "" <;> simp [h1, h2]

/-! ## Native applier -/

/-- C3: when the status is `Installed` and its values are deeply equal to the
desired values, `NativePlugin.Apply` makes no call to the sync engine and
leaves the status as it was; and when the source download, the builder of the
plugin kind and the inline builder all succeed, it returns nil. -/
theorem apply_uptodate_noop {V : Type} (env : Env V) (n : NativePlugin V) (plugin : Plugin V)
    (status : PluginStatus V) (hphase : status.Phase = PluginPhaseInstalled)
    (hvalues : env.DeepEqual status.Values plugin.Values = true) :
    (n.Apply env plugin status).trace = [] ∧
    (n.Apply env plugin status).status = status ∧
    ∀ p manifests inlineresources,
      env.Download (sourceDefaults n plugin).Repo (sourceDefaults n plugin).Version
        (sourceDefaults n plugin).Path = .ok p →
      n.BuildFunc { sourceDefaults n plugin with Path := p } = .ok manifests →
      InlineBuildPlugin env { sourceDefaults n plugin with Path := p } = .ok inlineresources →
      (n.Apply env plugin status).ret = .nil := by
  have hv : env.DeepEqual status.Values (sourceDefaults n plugin).Values = true := by
    rw [sourceDefaults_values]; exact hvalues
  refine ⟨?_, ?_, ?_⟩
  · unfold NativePlugin.Apply
    simp only []
    split
    · rfl
    · split
      · rfl
      · split
        · rfl
        · rw [if_pos ⟨hphase, hv⟩]
  · unfold NativePlugin.Apply
    simp only []
    split
    · rfl
    · split
      · rfl
      · split
        · rfl
        · rw [if_pos ⟨hphase, hv⟩]
  · intro p manifests inlineresources hd hb hi
    unfold NativePlugin.Apply
    simp only [hd, hb, hi]
    rw [if_pos ⟨hphase, hv⟩]

/-- Witness for C3: `ns1/demo`, installed with the desired values, applied
again over an engine that would fail. -/
theorem apply_uptodate_noop_witness :
    (demoStatus PluginPhaseInstalled).Phase = PluginPhaseInstalled ∧
    demoEnv.DeepEqual (demoStatus PluginPhaseInstalled).Values demoPlugin.Values = true ∧
    ((demoNative cancelledEngine).Apply demoEnv demoPlugin (demoStatus PluginPhaseInstalled)).trace = [] ∧
    ((demoNative cancelledEngine).Apply demoEnv demoPlugin (demoStatus PluginPhaseInstalled)).status =
      demoStatus PluginPhaseInstalled ∧
    ((demoNative cancelledEngine).Apply demoEnv demoPlugin (demoStatus PluginPhaseInstalled)).ret = .nil :=
  have h := apply_uptodate_noop demoEnv (demoNative cancelledEngine) demoPlugin
    (demoStatus PluginPhaseInstalled) rfl (by decide)
  ⟨rfl, by decide, h.1, h.2.1, h.2.2 _ _ _ rfl rfl rfl⟩

/-- Every path of `NativePlugin.Apply` that does not return nil leaves `Phase`
and `CreationTimestamp` as they were. -/
theorem apply_not_nil_frame {V : Type} (env : Env V) (n : NativePlugin V) (plugin : Plugin V)
    (status : PluginStatus V) :
    (n.Apply env plugin status).ret = .nil ∨
    ((n.Apply env plugin status).status.Phase = status.Phase ∧
      (n.Apply env plugin status).status.CreationTimestamp = status.CreationTimestamp) := by
  unfold NativePlugin.Apply
  simp only []
  split
  · exact Or.inr ⟨rfl, rfl⟩
  · split
    · exact Or.inr ⟨rfl, rfl⟩
    · split
      · exact Or.inr ⟨rfl, rfl⟩
      · split
        · exact Or.inl rfl
        · split
          · exact Or.inr ⟨rfl, rfl⟩
          · exact Or.inr ⟨rfl, rfl⟩
          · split
            · next heq =>
              have h := congrArg Prod.snd heq
              simp only at h
              subst h
              exact Or.inr (parseResult_phase env _ status)
            · exact Or.inl rfl

/-- Every path of `NativePlugin.Remove` that does not return nil leaves `Phase`
and `CreationTimestamp` as they were. -/
theorem remove_not_nil_frame {V : Type} (env : Env V) (n : NativePlugin V) (plugin : Plugin V)
    (status : PluginStatus V) :
    (n.Remove env plugin status).ret = .nil ∨
    ((n.Remove env plugin status).status.Phase = status.Phase ∧
      (n.Remove env plugin status).status.CreationTimestamp = status.CreationTimestamp) := by
  unfold NativePlugin.Remove
  simp only []
  split
  · split
    · exact Or.inr ⟨rfl, rfl⟩
    · exact Or.inr ⟨rfl, rfl⟩
    · split
      · next heq =>
        have h := congrArg Prod.snd heq
        simp only at h
        subst h
        exact Or.inr (parseResult_phase env _ status)
      · exact Or.inl rfl
  · split
    · exact Or.inl rfl
    · split
      · exact Or.inl rfl
      · exact Or.inl rfl

/-- When `parseResult` returns nil the aggregate phase is neither `Running` nor
`Failed` and no per-resource result has status `SyncFailed`. -/
theorem parseResult_nil {V : Type} (env : Env V) (result : SyncResult)
    (status : PluginStatus V) (h : (parseResult env result status).1 = none) :
    result.phase ≠ OperationRunning ∧ result.phase ≠ OperationFailed ∧
      syncFailed result.results = [] := by
  by_cases hr : result.phase = OperationRunning
  · unfold parseResult at h
    rw [if_pos hr] at h
    cases h
  · by_cases hf : result.phase = OperationFailed
    · unfold parseResult at h
      rw [if_neg hr, if_pos hf] at h
      cases h
    · rw [parseResult_scanned env result status hr hf] at h
      refine ⟨hr, hf, ?_⟩
      by_cases hs : syncFailed result.results = []
      · exact hs
      · simp [hs] at h

/-- What the code does guarantee about a status set to `Installed` by a run of
the sync engine: the engine returned a nil error and a result whose aggregate
phase is neither `Running` nor `Failed`, with no `SyncFailed` entry. -/
theorem apply_ran_and_returned_nil {V : Type} (env : Env V) (n : NativePlugin V)
    (plugin : Plugin V) (status : PluginStatus V)
    (hran : (n.Apply env plugin status).trace ≠ [])
    (hnil : (n.Apply env plugin status).ret = .nil) :
    (n.Apply env plugin status).status.Phase = PluginPhaseInstalled ∧
    ∃ manifests result,
      n.applyer plugin.Namespace manifests
        (WithManagedResourceSelectByPluginName plugin.Namespace plugin.Name) =
          (some result, none) ∧
      result.phase ≠ OperationRunning ∧ result.phase ≠ OperationFailed ∧
      syncFailed result.results = [] := by
  unfold NativePlugin.Apply at hran hnil ⊢
  simp only [] at hran hnil ⊢
  split at hran
  · exact absurd rfl hran
  · split at hran
    · exact absurd rfl hran
    · split at hran
      · exact absurd rfl hran
      · split at hran
        · exact absurd rfl hran
        · next hd _ _ hb _ _ hi hgate =>
          simp only [hd, hb, hi, if_neg hgate] at hnil ⊢
          split at hnil
          · cases hnil
          · cases hnil
          · next result happ =>
            split at hnil
            · cases hnil
            · next heq =>
              simp only [heq]
              refine ⟨?_, _, result, happ, parseResult_nil env result status (by rw [heq])⟩
              split <;> rfl

/-- When the sync engine was run and handed back a result whose aggregate phase
is `Running` or `Failed`, `NativePlugin.Apply` returns an error, whether the
engine itself returned one or `parseResult` did. -/
theorem apply_engine_bad_phase {V : Type} (env : Env V) (n : NativePlugin V)
    (plugin : Plugin V) (status : PluginStatus V) :
    (n.Apply env plugin status).trace = [] ∨
    ∃ manifests,
      (n.Apply env plugin status).trace = [Event.sync plugin.Namespace manifests
        (WithManagedResourceSelectByPluginName plugin.Namespace plugin.Name)] ∧
      ∀ result, (n.applyer plugin.Namespace manifests
          (WithManagedResourceSelectByPluginName plugin.Namespace plugin.Name)).1 = some result →
        (result.phase = OperationRunning ∨ result.phase = OperationFailed) →
        ∃ err, (n.Apply env plugin status).ret = .error err := by
  unfold NativePlugin.Apply
  simp only []
  split
  · exact Or.inl rfl
  · split
    · exact Or.inl rfl
    · split
      · exact Or.inl rfl
      · split
        · exact Or.inl rfl
        · next _ _ built _ _ inline _ _ =>
          right
          refine ⟨List.map (stampManifest (sourceDefaults n plugin).Namespace
            (sourceDefaults n plugin).Name) (built ++ inline), ?_, ?_⟩
          · split
            · rfl
            · rfl
            · split <;> rfl
          · intro result hres hbad
            split
            · exact ⟨_, rfl⟩
            · next heq =>
              rw [heq] at hres
              cases hres
            · next heq =>
              rw [heq] at hres
              simp only [Option.some.injEq] at hres
              subst hres
              split
              · exact ⟨_, rfl⟩
              · next hparse =>
                have hnil := parseResult_nil env _ status (by rw [hparse])
                rcases hbad with h | h
                · exact absurd h hnil.1
                · exact absurd h hnil.2.1

/-- C4: over a sync engine whose results carry one of the aggregate phases of
the data model (`Running`, `Succeeded`, `Failed`): whenever `NativePlugin.Apply`
ran the sync engine and returned nil, which is the one path that sets the
phase to `Installed`, the engine returned a nil error and a result whose
aggregate phase is `Succeeded` and none of whose per-resource entries has
status `SyncFailed`; and whenever the engine was run and handed back a result
whose aggregate phase is not `Succeeded`, `Apply` returns an error and the
phase of the status is what it was before the call. -/
theorem installed_only_after_succeeded_sync {V : Type} (env : Env V) (n : NativePlugin V)
    (plugin : Plugin V) (status : PluginStatus V)
    (hphase : ∀ ns resources selector result,
      (n.applyer ns resources selector).1 = some result → isSpecPhase result.phase = true) :
    ((n.Apply env plugin status).trace ≠ [] → (n.Apply env plugin status).ret = .nil →
      (n.Apply env plugin status).status.Phase = PluginPhaseInstalled ∧
      ∃ manifests result,
        n.applyer plugin.Namespace manifests
          (WithManagedResourceSelectByPluginName plugin.Namespace plugin.Name) =
            (some result, none) ∧
        result.phase = OperationSucceeded ∧
        ∀ r ∈ result.results, r.Status ≠ ResultCodeSyncFailed) ∧
    (∀ ns resources selector result,
      Event.sync ns resources selector ∈ (n.Apply env plugin status).trace →
      (n.applyer ns resources selector).1 = some result →
      result.phase ≠ OperationSucceeded →
      (∃ err, (n.Apply env plugin status).ret = .error err) ∧
      (n.Apply env plugin status).status.Phase = status.Phase) := by
  have hcases : ∀ phase : OperationPhase, isSpecPhase phase = true →
      phase = OperationRunning ∨ phase = OperationSucceeded ∨ phase = OperationFailed := by
    intro phase h
    simpa [isSpecPhase, or_assoc] using h
  constructor
  · intro hran hnil
    obtain ⟨hinstalled, manifests, result, happ, hr, hf, hs⟩ :=
      apply_ran_and_returned_nil env n plugin status hran hnil
    refine ⟨hinstalled, manifests, result, happ, ?_, ?_⟩
    · rcases hcases _ (hphase _ _ _ result (by rw [happ])) with h | h | h
      · exact absurd h hr
      · exact h
      · exact absurd h hf
    · intro r hr0 hfailed
      have hmem : r ∈ syncFailed result.results := by
        unfold syncFailed
        exact List.mem_filter.mpr ⟨hr0, by simpa using hfailed⟩
      rw [hs] at hmem
      cases hmem
  · intro ns resources selector result hcall hres hne
    rcases apply_engine_bad_phase env n plugin status with h | ⟨manifests, h, hbad⟩
    · rw [h] at hcall
      cases hcall
    · rw [h, List.mem_singleton, Event.sync.injEq] at hcall
      obtain ⟨rfl, rfl, rfl⟩ := hcall
      have hb : result.phase = OperationRunning ∨ result.phase = OperationFailed := by
        rcases hcases _ (hphase _ _ _ result hres) with h1 | h1 | h1
        · exact Or.inl h1
        · exact absurd h1 hne
        · exact Or.inr h1
      obtain ⟨err, herr⟩ := hbad result hres hb
      refine ⟨⟨err, herr⟩, ?_⟩
      rcases apply_not_nil_frame env n plugin status with h0 | h1
      · rw [h0] at herr
        cases herr
      · exact h1.1

/-- Witness for C4: a fresh install of `ns1/demo` over a sync that succeeded
with one synced resource, and an upgrade over a sync whose aggregate phase is
`Failed`. -/
theorem installed_only_after_succeeded_sync_witness :
    ((demoNative (demoEngine ⟨OperationSucceeded, "successfully synced",
        [⟨cmA, ResultCodeSynced, "configmap/cm-a created"⟩]⟩)).Apply
      demoEnv demoPlugin (demoStatus PluginPhaseNone)).status.Phase = PluginPhaseInstalled ∧
    (∃ err, ((demoNative (demoEngine ⟨OperationFailed, "one or more objects failed to apply",
        [⟨cmA, ResultCodeSyncFailed, "admission webhook denied the request"⟩]⟩)).Apply
      demoEnv demoPlugin (demoStatus PluginPhaseRemoved)).ret = .error err) ∧
    ((demoNative (demoEngine ⟨OperationFailed, "one or more objects failed to apply",
        [⟨cmA, ResultCodeSyncFailed, "admission webhook denied the request"⟩]⟩)).Apply
      demoEnv demoPlugin (demoStatus PluginPhaseRemoved)).status.Phase = PluginPhaseRemoved :=
  have hOk := installed_only_after_succeeded_sync demoEnv
    (demoNative (demoEngine ⟨OperationSucceeded, "successfully synced",
      [⟨cmA, ResultCodeSynced, "configmap/cm-a created"⟩]⟩)) demoPlugin
    (demoStatus PluginPhaseNone)
    (fun _ _ _ _ h => Option.some.inj h ▸ rfl)
  have hFailed := installed_only_after_succeeded_sync demoEnv
    (demoNative (demoEngine ⟨OperationFailed, "one or more objects failed to apply",
      [⟨cmA, ResultCodeSyncFailed, "admission webhook denied the request"⟩]⟩)) demoPlugin
    (demoStatus PluginPhaseRemoved)
    (fun _ _ _ _ h => Option.some.inj h ▸ rfl)
  have hCall := hFailed.2 _ _ _ _ (List.Mem.head _) rfl (by decide)
  ⟨(hOk.1 (List.cons_ne_nil _ _) rfl).1, hCall.1, hCall.2⟩

/-- C5: if `NativePlugin.Apply` returns an error then `status.Phase` is what it
was before the call, and if `NativePlugin.Remove` returns an error then
`status.Phase` is what it was before the call. -/
theorem failed_call_keeps_phase {V : Type} (env : Env V) (n : NativePlugin V)
    (plugin : Plugin V) (status : PluginStatus V) :
    (∀ err, (n.Apply env plugin status).ret = .error err →
      (n.Apply env plugin status).status.Phase = status.Phase) ∧
    (∀ err, (n.Remove env plugin status).ret = .error err →
      (n.Remove env plugin status).status.Phase = status.Phase) := by
  constructor
  · intro err h
    rcases apply_not_nil_frame env n plugin status with h0 | h1
    · rw [h0] at h; cases h
    · exact h1.1
  · intro err h
    rcases remove_not_nil_frame env n plugin status with h0 | h1
    · rw [h0] at h; cases h
    · exact h1.1

/-- Witness for C5: an apply over a failed sync and a remove over a cancelled
one both return an error and keep the phase. -/
theorem failed_call_keeps_phase_witness :
    ((demoNative (demoEngine ⟨OperationFailed, "one or more objects failed to apply", []⟩)).Apply
      demoEnv demoPlugin (demoStatus PluginPhaseFailed)).status.Phase = PluginPhaseFailed ∧
    ((demoNative cancelledEngine).Remove demoEnv demoPlugin
      (demoStatus PluginPhaseInstalled)).status.Phase = PluginPhaseInstalled :=
  ⟨(failed_call_keeps_phase demoEnv
      (demoNative (demoEngine ⟨OperationFailed, "one or more objects failed to apply", []⟩))
      demoPlugin (demoStatus PluginPhaseFailed)).1
      ⟨"sync failed: one or more objects failed to apply"⟩ rfl,
    (failed_call_keeps_phase demoEnv (demoNative cancelledEngine) demoPlugin
      (demoStatus PluginPhaseInstalled)).2 ⟨"timed out waiting for the condition"⟩ rfl⟩

/-- C6 (the code at the failing input): the aggregate phase is `Succeeded`,
ConfigMap `cm-a` synced and ConfigMap `cm-b` has status `SyncFailed` with a
message that contains a percent sign. `parseResult` passes the joined lines to
`fmt.Errorf` as the format, so the returned message is not the joined lines:
the percent sign and the two characters after it are rendered as a directive
with a missing operand. -/
theorem parseResult_message_not_join :
    (parseResult demoEnv
      ⟨OperationSucceeded, "successfully synced",
        [⟨cmA, ResultCodeSynced, "configmap/cm-a created"⟩,
         ⟨cmB, ResultCodeSyncFailed, "memory is at 95% of the namespace quota"⟩]⟩
      (demoStatus PluginPhaseNone)).1 =
      some ⟨"/ConfigMap/ns1/cm-b: memory is at 95%!o(MISSING)f the namespace quota"⟩ ∧
    Join ((syncFailed
        [⟨cmA, ResultCodeSynced, "configmap/cm-a created"⟩,
         ⟨cmB, ResultCodeSyncFailed, "memory is at 95% of the namespace quota"⟩]).map errmsgOf) "\n" =
      "/ConfigMap/ns1/cm-b: memory is at 95% of the namespace quota" := by
  constructor <;> decide

/-- C7 (as stated, refuted): on a sync result whose aggregate phase is `Failed`
`parseResult` returns before the notes are built, so `status.Notes` keeps its
old text instead of the serialisation of the per-resource entries. -/
theorem parseResult_failed_keeps_old_notes :
    (parseResult demoEnv
      ⟨OperationFailed, "one or more objects failed to apply",
        [⟨cmA, ResultCodeSynced, "configmap/cm-a created"⟩,
         ⟨cmB, ResultCodeSyncFailed, "admission webhook denied the request"⟩]⟩
      (demoStatus PluginPhaseInstalled)).2.Notes ≠
    demoEnv.Marshal
      ([⟨cmA, ResultCodeSynced, "configmap/cm-a created"⟩,
        ⟨cmB, ResultCodeSyncFailed, "admission webhook denied the request"⟩].map noteOf) := by
  decide

/-- C7 (amended): on a sync result whose aggregate phase is `Succeeded`,
`parseResult` replaces `status.Notes` with the serialisation of one note per
per-resource entry, in order, and changes nothing else, whether or not it
returns an error; on a sync result whose aggregate phase is `Failed` it
returns the error `sync failed: <message>` and leaves the status, notes
included, as it was. -/
theorem parseResult_notes (V : Type) (env : Env V) (result : SyncResult)
    (status : PluginStatus V) :
    (result.phase = OperationSucceeded →
      (parseResult env result status).2 =
        { status with Notes := env.Marshal (result.results.map noteOf) }) ∧
    (result.phase = OperationFailed →
      parseResult env result status = (some ⟨"sync failed: " ++ result.message⟩, status)) := by
  constructor
  · intro h
    have hr : result.phase ≠ OperationRunning := by rw [h]; decide
    have hf : result.phase ≠ OperationFailed := by rw [h]; decide
    rw [parseResult_scanned env result status hr hf]
  · intro h
    have hr : result.phase ≠ OperationRunning := by rw [h]; decide
    unfold parseResult
    rw [if_neg hr, if_pos h]

/-- Witness for C7 (amended): a succeeded sync with one failed entry refreshes
the notes although an error is returned; a failed sync keeps the status. -/
theorem parseResult_notes_witness :
    (parseResult demoEnv
      ⟨OperationSucceeded, "successfully synced",
        [⟨cmA, ResultCodeSynced, "configmap/cm-a created"⟩,
         ⟨cmB, ResultCodeSyncFailed, "admission webhook denied the request"⟩]⟩
      (demoStatus PluginPhaseNone)).2 =
      { demoStatus PluginPhaseNone with
        Notes := "- resource: /ConfigMap/ns1/cm-a\n  status: Synced\n" ++
          "- resource: /ConfigMap/ns1/cm-b\n  status: SyncFailed\n" } ∧
    parseResult demoEnv ⟨OperationFailed, "one or more objects failed to apply", []⟩
      (demoStatus PluginPhaseInstalled) =
      (some ⟨"sync failed: one or more objects failed to apply"⟩, demoStatus PluginPhaseInstalled) :=
  ⟨(parseResult_notes DemoValues demoEnv
      ⟨OperationSucceeded, "successfully synced",
        [⟨cmA, ResultCodeSynced, "configmap/cm-a created"⟩,
         ⟨cmB, ResultCodeSyncFailed, "admission webhook denied the request"⟩]⟩
      (demoStatus PluginPhaseNone)).1 rfl,
    (parseResult_notes DemoValues demoEnv
      ⟨OperationFailed, "one or more objects failed to apply", []⟩
      (demoStatus PluginPhaseInstalled)).2 rfl⟩

/-- `NativePlugin.Apply` changes `CreationTimestamp` only on a path that
returns nil and found the timestamp zero. -/
theorem apply_creation_frame {V : Type} (env : Env V) (n : NativePlugin V) (plugin : Plugin V)
    (status : PluginStatus V) :
    (n.Apply env plugin status).status.CreationTimestamp = status.CreationTimestamp ∨
    ((n.Apply env plugin status).ret = .nil ∧ IsZero status.CreationTimestamp = true) := by
  unfold NativePlugin.Apply
  simp only []
  split
  · exact Or.inl rfl
  · split
    · exact Or.inl rfl
    · split
      · exact Or.inl rfl
      · split
        · exact Or.inl rfl
        · split
          · exact Or.inl rfl
          · exact Or.inl rfl
          · split
            · next heq =>
              have h := congrArg Prod.snd heq
              simp only at h
              subst h
              exact Or.inl (parseResult_phase env _ status).2
            · next heq =>
              have h := congrArg Prod.snd heq
              simp only at h
              subst h
              by_cases hz : IsZero status.CreationTimestamp = true
              · exact Or.inr ⟨rfl, hz⟩
              · left
                simp only [(parseResult_phase env _ status).2, hz]
                simp

/-- `NativePlugin.Remove` leaves `CreationTimestamp` alone unless the phase is
unset, and then sets it to the current instant. -/
theorem remove_creation_frame {V : Type} (env : Env V) (n : NativePlugin V) (plugin : Plugin V)
    (status : PluginStatus V) :
    (n.Remove env plugin status).status.CreationTimestamp =
      if status.Phase = "" then env.Now else status.CreationTimestamp := by
  unfold NativePlugin.Remove
  simp only []
  split
  · next h =>
    have hne : status.Phase ≠ "" := by
      rcases h with h | h <;> rw [h] <;> decide
    rw [if_neg hne]
    split
    · rfl
    · rfl
    · split
      · next heq =>
        have h := congrArg Prod.snd heq
        simp only at h
        subst h
        exact (parseResult_phase env _ status).2
      · next heq =>
        have h := congrArg Prod.snd heq
        simp only at h
        subst h
        exact (parseResult_phase env _ status).2
  · split
    · next h =>
      have hne : status.Phase ≠ "" := by rw [h]; decide
      rw [if_neg hne]
    · split
      · rfl
      · rfl

/-- C8 (as stated, refuted): `NativePlugin.Remove` on a status whose phase is
unset overwrites `CreationTimestamp` (here 5) with the current instant (42). -/
theorem remove_unset_phase_overwrites_creation :
    ((demoNative cancelledEngine).Remove demoEnv demoPlugin (demoStatus "")).status.CreationTimestamp ≠
      (demoStatus "").CreationTimestamp := by
  decide

/-- C8 (amended): `NativePlugin.Remove` leaves `CreationTimestamp` unchanged in
every phase other than the unset one, where it sets it to the current instant;
`NativePlugin.Apply` never overwrites a non-zero `CreationTimestamp`, and an
`Apply` that changes it returned nil and found it zero. -/
theorem creation_timestamp_frame (V : Type) (env : Env V) (n : NativePlugin V)
    (plugin : Plugin V) (status : PluginStatus V) :
    (status.Phase ≠ "" →
      (n.Remove env plugin status).status.CreationTimestamp = status.CreationTimestamp) ∧
    (status.Phase = "" → (n.Remove env plugin status).status.CreationTimestamp = env.Now) ∧
    (IsZero status.CreationTimestamp = false →
      (n.Apply env plugin status).status.CreationTimestamp = status.CreationTimestamp) ∧
    ((n.Apply env plugin status).status.CreationTimestamp ≠ status.CreationTimestamp →
      (n.Apply env plugin status).ret = .nil ∧ IsZero status.CreationTimestamp = true) := by
  refine ⟨?_, ?_, ?_, ?_⟩
  · intro h
    rw [remove_creation_frame, if_neg h]
  · intro h
    rw [remove_creation_frame, if_pos h]
  · intro h
    rcases apply_creation_frame env n plugin status with h0 | h1
    · exact h0
    · rw [h1.2] at h; cases h
  · intro h
    rcases apply_creation_frame env n plugin status with h0 | h1
    · exact absurd h0 h
    · exact h1

/-- Witness for C8 (amended): a successful remove of an installed plugin and a
successful upgrade both keep the creation instant 5; a remove in the unset
phase reads the clock. -/
theorem creation_timestamp_frame_witness :
    ((demoNative (demoEngine ⟨OperationSucceeded, "successfully synced", []⟩)).Remove demoEnv
      demoPlugin (demoStatus PluginPhaseInstalled)).status.CreationTimestamp = 5 ∧
    ((demoNative cancelledEngine).Remove demoEnv demoPlugin (demoStatus "")).status.CreationTimestamp =
      42 ∧
    ((demoNative (demoEngine ⟨OperationSucceeded, "successfully synced", []⟩)).Apply demoEnv
      demoPlugin (demoStatus PluginPhaseFailed)).status.CreationTimestamp = 5 :=
  ⟨(creation_timestamp_frame DemoValues demoEnv
      (demoNative (demoEngine ⟨OperationSucceeded, "successfully synced", []⟩)) demoPlugin
      (demoStatus PluginPhaseInstalled)).1 (by decide),
    (creation_timestamp_frame DemoValues demoEnv (demoNative cancelledEngine) demoPlugin
      (demoStatus "")).2.1 rfl,
    (creation_timestamp_frame DemoValues demoEnv
      (demoNative (demoEngine ⟨OperationSucceeded, "successfully synced", []⟩)) demoPlugin
      (demoStatus PluginPhaseFailed)).2.2.1 rfl⟩

/-- C9: on a status whose phase is neither `Installed` nor `Failed`,
`NativePlugin.Remove` returns nil and makes no call to the sync engine; when
the phase is `None` the status is left as it was, and when the phase is unset
it becomes `None`. -/
theorem remove_gate {V : Type} (env : Env V) (n : NativePlugin V) (plugin : Plugin V)
    (status : PluginStatus V) (hi : status.Phase ≠ PluginPhaseInstalled)
    (hf : status.Phase ≠ PluginPhaseFailed) :
    (n.Remove env plugin status).ret = .nil ∧
    (n.Remove env plugin status).trace = [] ∧
    (status.Phase = PluginPhaseNone → (n.Remove env plugin status).status = status) ∧
    (status.Phase = "" → (n.Remove env plugin status).status.Phase = PluginPhaseNone) := by
  have hgate : ¬(status.Phase = PluginPhaseInstalled ∨ status.Phase = PluginPhaseFailed) := by
    rintro (h | h)
    · exact hi h
    · exact hf h
  unfold NativePlugin.Remove
  simp only []
  rw [if_neg hgate]
  by_cases hn : status.Phase = PluginPhaseNone
  · rw [if_pos hn]
    refine ⟨rfl, rfl, fun _ => rfl, fun h => ?_⟩
    rw [h] at hn
    exact absurd hn (by decide)
  · rw [if_neg hn]
    by_cases he : status.Phase = ""
    · rw [if_pos he]
      exact ⟨rfl, rfl, fun h => absurd h hn, fun _ => rfl⟩
    · rw [if_neg he]
      exact ⟨rfl, rfl, fun h => absurd h hn, fun h => absurd h he⟩

/-- Witness for C9: a remove in the unset phase, over an engine that would
return an error if it were called. -/
theorem remove_gate_witness :
    (demoStatus "").Phase ≠ PluginPhaseInstalled ∧ (demoStatus "").Phase ≠ PluginPhaseFailed ∧
    ((demoNative cancelledEngine).Remove demoEnv demoPlugin (demoStatus "")).ret = .nil ∧
    ((demoNative cancelledEngine).Remove demoEnv demoPlugin (demoStatus "")).trace = [] ∧
    ((demoNative cancelledEngine).Remove demoEnv demoPlugin (demoStatus "")).status.Phase =
      PluginPhaseNone :=
  have h := remove_gate demoEnv (demoNative cancelledEngine) demoPlugin (demoStatus "")
    (by decide) (by decide)
  ⟨by decide, by decide, h.1, h.2.1, h.2.2.2 rfl⟩

/-! ## Dispatcher -/

/-- C10: when the plugin kind has no registered applier, `Apply` and `Remove`
of `DelegatePluginManager` return `ErrUnknownPluginKind`, call no applier and
leave the status as it was; when the kind is registered they return what that
kind's applier returns for the same plugin and status, with the status as that
applier left it. -/
theorem delegate_dispatch {V : Type} (m : DelegatePluginManager V) (plugin : Plugin V)
    (status : PluginStatus V) :
    (lookupApplier m.appliers plugin.Kind = none →
      m.Apply plugin status = ⟨.error ErrUnknownPluginKind, status, []⟩ ∧
      m.Remove plugin status = ⟨.error ErrUnknownPluginKind, status, []⟩) ∧
    (∀ applier, lookupApplier m.appliers plugin.Kind = some applier →
      (m.Apply plugin status).ret = (applier.Apply plugin status).ret ∧
      (m.Apply plugin status).status = (applier.Apply plugin status).status ∧
      (m.Remove plugin status).ret = (applier.Remove plugin status).ret ∧
      (m.Remove plugin status).status = (applier.Remove plugin status).status) := by
  constructor
  · intro h
    simp [DelegatePluginManager.Apply, DelegatePluginManager.Remove, h]
  · intro applier h
    simp [DelegatePluginManager.Apply, DelegatePluginManager.Remove, h]

/-- Witness for C10: the dispatcher of `NewDelegatePluginManager` has no applier
for kind `wasm`, and sends kind `inline` to the native applier built over the
plugins directory with `InlineBuildPlugin`. -/
theorem delegate_dispatch_witness :
    (demoManager.Apply { demoPlugin with Kind := "wasm" } (demoStatus PluginPhaseNone) =
        ⟨.error ErrUnknownPluginKind, demoStatus PluginPhaseNone, []⟩ ∧
      demoManager.Remove { demoPlugin with Kind := "wasm" } (demoStatus PluginPhaseNone) =
        ⟨.error ErrUnknownPluginKind, demoStatus PluginPhaseNone, []⟩) ∧
    (demoManager.Apply demoPlugin (demoStatus PluginPhaseNone)).ret = .nil ∧
    (demoManager.Apply demoPlugin (demoStatus PluginPhaseNone)).status.Phase = PluginPhaseInstalled :=
  ⟨(delegate_dispatch demoManager { demoPlugin with Kind := "wasm" }
      (demoStatus PluginPhaseNone)).1 rfl,
    ((delegate_dispatch demoManager demoPlugin (demoStatus PluginPhaseNone)).2
      ((NewNativePlugin demoEnv (demoEngine ⟨OperationSucceeded, "successfully synced", []⟩)
        "plugins" (InlineBuildPlugin demoEnv)).toPluginManager demoEnv) rfl).1.trans rfl,
    (congrArg PluginStatus.Phase
      ((delegate_dispatch demoManager demoPlugin (demoStatus PluginPhaseNone)).2
        ((NewNativePlugin demoEnv (demoEngine ⟨OperationSucceeded, "successfully synced", []⟩)
          "plugins" (InlineBuildPlugin demoEnv)).toPluginManager demoEnv) rfl).2.1).trans rfl⟩

/-! ## Polling loop of the sync engine call -/

theorem Completed_not_running (phase : OperationPhase) (h : Completed phase = true) :
    phase ≠ OperationRunning := by
  intro hr
  rw [hr] at h
  revert h
  decide

/-- A nil error leaves the polling loop only in a round that read a completed
phase, and the result returned is what that round read. -/
theorem PollUntil_nil (syncCtx : SyncContext) (ticks k : Nat) (result res : Option SyncResult)
    (h : PollUntil syncCtx ticks k result = (res, none)) :
    ∃ i, k ≤ i ∧ i < k + ticks ∧ res = some (syncCtx.observe i) ∧
      Completed (syncCtx.observe i).phase = true := by
  induction ticks generalizing k result with
  | zero => simp [PollUntil] at h
  | succ t ih =>
    unfold PollUntil at h
    simp only [] at h
    split at h
    · next hc =>
      simp only [Prod.mk.injEq, and_true] at h
      exact ⟨k, Nat.le_refl _, by omega, h.symm, hc⟩
    · obtain ⟨i, h1, h2, h3, h4⟩ := ih _ _ h
      exact ⟨i, by omega, by omega, h3, h4⟩

/-- When no round before the cancellation reads a completed phase, the loop
returns `ErrWaitTimeout` and the result of the last round as it was read. -/
theorem PollUntil_cancelled (syncCtx : SyncContext) (ticks k : Nat) (result : Option SyncResult)
    (h : ∀ i, k ≤ i → i < k + ticks → Completed (syncCtx.observe i).phase = false) :
    PollUntil syncCtx ticks k result =
      (if ticks = 0 then result else some (syncCtx.observe (k + ticks - 1)),
        some ErrWaitTimeout) := by
  induction ticks generalizing k result with
  | zero => simp [PollUntil]
  | succ t ih =>
    unfold PollUntil
    simp only []
    have hk := h k (Nat.le_refl _) (by omega)
    rw [if_neg (by rw [hk]; decide)]
    rw [ih (k + 1) _ (fun i h1 h2 => h i (by omega) (by omega))]
    by_cases ht : t = 0
    · subst ht
      simp
    · have e : k + 1 + t - 1 = k + (t + 1) - 1 := by omega
      simp [ht, e]

theorem PollUntil_cancelled_from_start (syncCtx : SyncContext) (ticks : Nat)
    (h : ∀ k, k < ticks → Completed (syncCtx.observe k).phase = false) :
    PollUntil syncCtx ticks 0 none = (lastObserved syncCtx ticks, some ErrWaitTimeout) := by
  rw [PollUntil_cancelled syncCtx ticks 0 none (fun i _ h2 => h i (by omega))]
  cases ticks with
  | zero => rfl
  | succ t => simp [lastObserved]

theorem applyWithCache_nil (c : Cluster) (clusterCache : ClusterCache) (ns : String)
    (resources : List Unstructured) (opts : Options) (res : Option SyncResult)
    (h : applyWithCache c clusterCache ns resources opts = (res, none)) :
    ∃ (syncCtx : SyncContext) (k : Nat), k < c.ticks ∧ res = some (syncCtx.observe k) ∧
      Completed (syncCtx.observe k).phase = true := by
  unfold applyWithCache at h
  split at h
  · simp at h
  · split at h
    · simp at h
    · obtain ⟨i, _, h2, h3, h4⟩ := PollUntil_nil _ c.ticks 0 none res h
      exact ⟨_, i, by omega, h3, h4⟩

/-- The calls of `NativePlugin.Apply`: none, or one run of the sync engine in
the plugin namespace with the ownership selector of the plugin; when that run
returns an error, `Apply` returns the same error and the status is as it was. -/
theorem apply_engine_call {V : Type} (env : Env V) (n : NativePlugin V)
    (plugin : Plugin V) (status : PluginStatus V) :
    (n.Apply env plugin status).trace = [] ∨
    ∃ manifests,
      (n.Apply env plugin status).trace = [Event.sync plugin.Namespace manifests
        (WithManagedResourceSelectByPluginName plugin.Namespace plugin.Name)] ∧
      ∀ err, (n.applyer plugin.Namespace manifests
          (WithManagedResourceSelectByPluginName plugin.Namespace plugin.Name)).2 = some err →
        (n.Apply env plugin status).ret = .error err ∧
        (n.Apply env plugin status).status = status := by
  unfold NativePlugin.Apply
  simp only []
  split
  · exact Or.inl rfl
  · split
    · exact Or.inl rfl
    · split
      · exact Or.inl rfl
      · split
        · exact Or.inl rfl
        · next _ _ built _ _ inline _ _ =>
          right
          refine ⟨List.map (stampManifest (sourceDefaults n plugin).Namespace
            (sourceDefaults n plugin).Name) (built ++ inline), ?_, ?_⟩
          · split
            · rfl
            · rfl
            · split <;> rfl
          · intro err herr
            split
            · next heq =>
              rw [heq] at herr
              simp only [Option.some.injEq] at herr
              subst herr
              exact ⟨rfl, rfl⟩
            · next heq =>
              rw [heq] at herr
              cases herr
            · next heq =>
              rw [heq] at herr
              cases herr

/-- The calls of `NativePlugin.Remove`: none, or one run of the sync engine
with no desired resource; when that run returns an error, `Remove` returns the
same error and the status is as it was. -/
theorem remove_engine_call {V : Type} (env : Env V) (n : NativePlugin V)
    (plugin : Plugin V) (status : PluginStatus V) :
    (n.Remove env plugin status).trace = [] ∨
    ((n.Remove env plugin status).trace = [Event.sync plugin.Namespace []
        (WithManagedResourceSelectByPluginName plugin.Namespace plugin.Name)] ∧
      ∀ err, (n.applyer plugin.Namespace []
          (WithManagedResourceSelectByPluginName plugin.Namespace plugin.Name)).2 = some err →
        (n.Remove env plugin status).ret = .error err ∧
        (n.Remove env plugin status).status = status) := by
  unfold NativePlugin.Remove
  simp only []
  split
  · right
    refine ⟨?_, ?_⟩
    · split
      · rfl
      · rfl
      · split <;> rfl
    · intro err herr
      split
      · next heq =>
        rw [heq] at herr
        simp only [Option.some.injEq] at herr
        subst herr
        exact ⟨rfl, rfl⟩
      · next heq =>
        rw [heq] at herr
        cases herr
      · next heq =>
        rw [heq] at herr
        cases herr
  · left
    split
    · rfl
    · split <;> rfl

theorem apply_returns_engine_error {V : Type} (env : Env V) (n : NativePlugin V)
    (plugin : Plugin V) (status : PluginStatus V) (ns : String) (resources : List Unstructured)
    (selector : Unstructured → Option Bool) (err : GoError)
    (hcall : Event.sync ns resources selector ∈ (n.Apply env plugin status).trace)
    (herr : (n.applyer ns resources selector).2 = some err) :
    (n.Apply env plugin status).ret = .error err ∧ (n.Apply env plugin status).status = status := by
  rcases apply_engine_call env n plugin status with h | ⟨manifests, h, hret⟩
  · rw [h] at hcall
    cases hcall
  · rw [h, List.mem_singleton, Event.sync.injEq] at hcall
    obtain ⟨rfl, rfl, rfl⟩ := hcall
    exact hret err herr

theorem remove_returns_engine_error {V : Type} (env : Env V) (n : NativePlugin V)
    (plugin : Plugin V) (status : PluginStatus V) (ns : String) (resources : List Unstructured)
    (selector : Unstructured → Option Bool) (err : GoError)
    (hcall : Event.sync ns resources selector ∈ (n.Remove env plugin status).trace)
    (herr : (n.applyer ns resources selector).2 = some err) :
    (n.Remove env plugin status).ret = .error err ∧ (n.Remove env plugin status).status = status := by
  rcases remove_engine_call env n plugin status with h | ⟨h, hret⟩
  · rw [h] at hcall
    cases hcall
  · rw [h, List.mem_singleton, Event.sync.injEq] at hcall
    obtain ⟨rfl, rfl, rfl⟩ := hcall
    exact hret err herr

/-- C11: the polling loop of `NativeApply.Apply` and its callers. (1) When the
call returns a nil error, the result it returns was read in some round of the
loop and its phase is completed, hence not `Running`. (2) When the cache is
ready or syncs, the managed objects and the sync context are obtained, and the
cancellation signal is received before any round has read a completed phase,
the call returns the non-nil error `ErrWaitTimeout` together with the result of
the last round exactly as it was read (nil when no round ran). (3) and (4)
Whatever error the call returns to `NativePlugin.Apply` or to
`NativePlugin.Remove` is the error they return. -/
theorem poll_loop_contract {V : Type} (env : Env V) (c : Cluster) (a : NativeApply)
    (n : NativePlugin V) (plugin : Plugin V) (status : PluginStatus V)
    (hn : n.applyer = engineOn c a) :
    (∀ ns resources options result,
      (a.Apply c ns resources options).2 = (result, none) →
      ∃ (syncCtx : SyncContext) (k : Nat), k < c.ticks ∧ result = some (syncCtx.observe k) ∧
        Completed (syncCtx.observe k).phase = true ∧
        (syncCtx.observe k).phase ≠ OperationRunning) ∧
    (∀ ns resources options managed syncCtx,
      (a.cache = none → c.EnsureSynced = none) →
      (a.cache.getD c.NewClusterCache).GetManagedLiveObjs resources
        (isManaged (options.foldl (fun o opt => opt o) ⟨none⟩)) = .ok managed →
      c.NewSyncContext resources managed ns = .ok syncCtx →
      (∀ k, k < c.ticks → Completed (syncCtx.observe k).phase = false) →
      (a.Apply c ns resources options).2 = (lastObserved syncCtx c.ticks, some ErrWaitTimeout)) ∧
    (∀ ns resources selector result err,
      Event.sync ns resources selector ∈ (n.Apply env plugin status).trace →
      (a.Apply c ns resources [WithManagedResourceSelection selector]).2 = (result, some err) →
      (n.Apply env plugin status).ret = .error err) ∧
    (∀ ns resources selector result err,
      Event.sync ns resources selector ∈ (n.Remove env plugin status).trace →
      (a.Apply c ns resources [WithManagedResourceSelection selector]).2 = (result, some err) →
      (n.Remove env plugin status).ret = .error err) := by
  refine ⟨?_, ?_, ?_, ?_⟩
  · intro ns resources options result h
    have key : ∃ clusterCache opts,
        applyWithCache c clusterCache ns resources opts = (result, none) := by
      unfold NativeApply.Apply at h
      simp only [] at h
      split at h
      · split at h
        · simp at h
        · exact ⟨_, _, h⟩
      · exact ⟨_, _, h⟩
    obtain ⟨clusterCache, opts, hk⟩ := key
    obtain ⟨syncCtx, k, h1, h2, h3⟩ := applyWithCache_nil c clusterCache ns resources opts result hk
    exact ⟨syncCtx, k, h1, h2, h3, Completed_not_running _ h3⟩
  · intro ns resources options managed syncCtx hsync hmanaged hctx hrunning
    have hpoll := PollUntil_cancelled_from_start syncCtx c.ticks hrunning
    unfold NativeApply.Apply
    simp only []
    cases hcache : a.cache with
    | none =>
      rw [hcache] at hmanaged
      simp only [Option.getD_none] at hmanaged
      simp only [hsync hcache]
      unfold applyWithCache
      simp only [hmanaged, hctx, hpoll]
    | some clusterCache =>
      rw [hcache] at hmanaged
      simp only [Option.getD_some] at hmanaged
      simp only []
      unfold applyWithCache
      simp only [hmanaged, hctx, hpoll]
  · intro ns resources selector result err hcall hret
    refine (apply_returns_engine_error env n plugin status ns resources selector err hcall ?_).1
    rw [hn]
    unfold engineOn
    simp only [hret]
  · intro ns resources selector result err hcall hret
    refine (remove_returns_engine_error env n plugin status ns resources selector err hcall ?_).1
    rw [hn]
    unfold engineOn
    simp only [hret]

/-- Witness for C11: a sync that is still `Running` when the caller cancels
after three ticks, under an apply of `ns1/demo` and under a remove of it; and a
sync that succeeds in its second round. -/
theorem poll_loop_contract_witness :
    (demoNative (engineOn (demoCluster stuckContext 3) ⟨none⟩)).applyer =
      engineOn (demoCluster stuckContext 3) ⟨none⟩ ∧
    ((⟨none⟩ : NativeApply).Apply (demoCluster stuckContext 3) "ns1" [] []).2 =
      (some ⟨OperationRunning, "waiting for round 2", [⟨cmA, "", ""⟩]⟩, some ErrWaitTimeout) ∧
    ((demoNative (engineOn (demoCluster stuckContext 3) ⟨none⟩)).Apply demoEnv demoPlugin
      (demoStatus PluginPhaseNone)).ret = .error ErrWaitTimeout ∧
    ((demoNative (engineOn (demoCluster stuckContext 3) ⟨none⟩)).Remove demoEnv demoPlugin
      (demoStatus PluginPhaseInstalled)).ret = .error ErrWaitTimeout ∧
    ∃ (syncCtx : SyncContext) (k : Nat), k < 5 ∧
      some (convergingContext.observe 1) = some (syncCtx.observe k) ∧
      Completed (syncCtx.observe k).phase = true ∧ (syncCtx.observe k).phase ≠ OperationRunning :=
  have hApply := poll_loop_contract demoEnv (demoCluster stuckContext 3) ⟨none⟩
    (demoNative (engineOn (demoCluster stuckContext 3) ⟨none⟩)) demoPlugin
    (demoStatus PluginPhaseNone) rfl
  have hRemove := poll_loop_contract demoEnv (demoCluster stuckContext 3) ⟨none⟩
    (demoNative (engineOn (demoCluster stuckContext 3) ⟨none⟩)) demoPlugin
    (demoStatus PluginPhaseInstalled) rfl
  have hDone := poll_loop_contract demoEnv (demoCluster convergingContext 5) ⟨none⟩
    (demoNative (engineOn (demoCluster convergingContext 5) ⟨none⟩)) demoPlugin
    (demoStatus PluginPhaseNone) rfl
  ⟨rfl,
    hApply.2.1 "ns1" [] [] [] stuckContext (fun _ => rfl) rfl rfl (by decide),
    hApply.2.2.1 _ _ _ _ ErrWaitTimeout (List.Mem.head _) rfl,
    hRemove.2.2.2 _ _ _ _ ErrWaitTimeout (List.Mem.head _) rfl,
    hDone.1 "ns1" [] [] _ rfl⟩

end Kubegems
